import Mathlib

/-!
Shallow embedding of the provwasm orderbook smart contract
(`src/orderbook/src/{contract,state,error,msg}.rs`) and verification of its
natural-language specification.

Amounts are `Nat` (the Rust code uses `Uint128`; every subtraction in the
source is guarded so truncated subtraction coincides), addresses, ids and
denominations are `String`, timestamps are seconds as `Nat`.
-/

namespace Orderbook

open List

/-- A coin: an integer amount plus a denomination (`cosmwasm_std::Coin`). -/
structure Coin where
  amount : Nat
  denom : String
deriving DecidableEq, Repr

/-- `ContractError` from `error.rs`. -/
inductive ContractError where
  | Std (message : String)
  | Unauthorized
  | InvalidPrice (message : String)
  | DuplicateBid (id : String)
  | DuplicateAsk (id : String)
  | InvalidFunds (message : String)
  | AskClosed
  | BidClosed
deriving DecidableEq, Repr

/-- Contract config state (`state.rs::State`). -/
structure State where
  ask_denom : String
  ask_increment : Nat
  bid_denom : String
  contract_admin : String
deriving DecidableEq, Repr

/-- `InitMsg` (the only caller-supplied configuration is the bid denom). -/
structure InitMsg where
  bid_denom : String
deriving DecidableEq, Repr

/-- `instantiate` from `contract.rs`: the ask denom and ask increment are
hardcoded; the admin is the instantiating sender. -/
def instantiate (sender : String) (msg : InitMsg) : State :=
  { ask_denom := "nhash"
    ask_increment := 1000000000
    bid_denom := msg.bid_denom
    contract_admin := sender }

/-- Persisted bid order (`state.rs::BidOrder`). -/
structure BidOrder where
  id : String
  price : Nat
  ts : Nat
  bidder : String
  funds : Nat
  funds_denom : String
  proceeds : Nat
deriving DecidableEq, Repr

/-- `BidOrder::is_closed`. -/
def BidOrder.is_closed (o : BidOrder) : Bool :=
  decide (o.proceeds = 0) && decide (o.funds = 0)

/-- Persisted ask order (`state.rs::AskOrder`). -/
structure AskOrder where
  id : String
  price : Nat
  ts : Nat
  asker : String
  funds : Nat
  funds_denom : String
  proceeds : Nat
deriving DecidableEq, Repr

/-- `AskOrder::is_closed`. -/
def AskOrder.is_closed (o : AskOrder) : Bool :=
  decide (o.proceeds = 0) && decide (o.funds = 0)

/-- A `BankMsg::Send` message: a list of coins sent to an address. -/
structure BankSend where
  amount : List Coin
  to_address : String
deriving DecidableEq, Repr

/-- Response attributes: `(key, value)` pairs. -/
structure Response where
  msgs : List BankSend
  attributes : List (String × String)
deriving DecidableEq, Repr

/-- The return type for matching orders (`contract.rs::MatchResult`). -/
structure MatchResult where
  bid : BidOrder
  ask : AskOrder
  msgs : List BankSend
deriving DecidableEq, Repr

/-- The straight-line body of `match_orders` (after the two open-order
guards): phase 1 pays the asker in the bid funds denom, phase 2 delivers to
the bidder in the ask funds denom, then the residual refund zeroes the ask
funds when the ask proceeds reached zero. -/
def match_pair (bid0 : BidOrder) (ask0 : AskOrder) : MatchResult :=
  -- Phase 1: stablecoin transfer to asker.
  let step1 : BidOrder × AskOrder × List BankSend :=
    if ask0.proceeds < bid0.funds then
      ({ bid0 with funds := bid0.funds - ask0.proceeds },
       { ask0 with proceeds := 0 },
       [{ amount := [{ amount := ask0.proceeds, denom := bid0.funds_denom }],
          to_address := ask0.asker }])
    else
      ({ bid0 with funds := 0 },
       { ask0 with proceeds := ask0.proceeds - bid0.funds },
       [{ amount := [{ amount := bid0.funds, denom := bid0.funds_denom }],
          to_address := ask0.asker }])
  let bid1 := step1.1
  let ask1 := step1.2.1
  let msgs1 := step1.2.2
  -- Phase 2: nhash transfer to bidder.
  let step2 : BidOrder × AskOrder × List BankSend :=
    if bid1.proceeds < ask1.funds then
      ({ bid1 with proceeds := 0 },
       { ask1 with funds := ask1.funds - bid1.proceeds },
       msgs1 ++ [{ amount := [{ amount := bid1.proceeds, denom := ask1.funds_denom }],
                   to_address := bid1.bidder }])
    else
      ({ bid1 with proceeds := bid1.proceeds - ask1.funds },
       { ask1 with funds := 0 },
       msgs1 ++ [{ amount := [{ amount := ask1.funds, denom := ask1.funds_denom }],
                   to_address := bid1.bidder }])
  let bid2 := step2.1
  let ask2 := step2.2.1
  let msgs2 := step2.2.2
  -- Residual refund: the ask amount was met but not all funds were required.
  if ask2.proceeds = 0 ∧ ask2.funds ≠ 0 then
    { bid := bid2
      ask := { ask2 with funds := 0 }
      msgs := msgs2 ++ [{ amount := [{ amount := ask2.funds, denom := ask2.funds_denom }],
                          to_address := ask2.asker }] }
  else
    { bid := bid2, ask := ask2, msgs := msgs2 }

/-- `match_orders` from `contract.rs`: guard that both orders are open, then
run the two transfer phases and the residual refund. -/
def match_orders (bid0 : BidOrder) (ask0 : AskOrder) : Except ContractError MatchResult :=
  if bid0.is_closed then Except.error ContractError.BidClosed
  else if ask0.is_closed then Except.error ContractError.AskClosed
  else Except.ok (match_pair bid0 ask0)

/-!
### Order store

The contract stores orders in two buckets keyed by the UTF-8 bytes of the
order id.  We model each bucket as a list of orders (the id is the key); a
range scan iterates in ascending key order, which for UTF-8 encoded keys
agrees with the code-point lexicographic order on strings.
-/

/-- `Bucket::may_load` on the bid bucket. -/
def bidLookup (store : List BidOrder) (id : String) : Option BidOrder :=
  store.find? (fun o => o.id == id)

/-- `Bucket::may_load` on the ask bucket. -/
def askLookup (store : List AskOrder) (id : String) : Option AskOrder :=
  store.find? (fun o => o.id == id)

/-- `Bucket::save` on the bid bucket: overwrite the entry under the order id. -/
def saveBid (store : List BidOrder) (o : BidOrder) : List BidOrder :=
  store.filter (fun x => x.id ≠ o.id) ++ [o]

/-- `Bucket::remove` on the bid bucket. -/
def removeBid (store : List BidOrder) (id : String) : List BidOrder :=
  store.filter (fun x => x.id ≠ id)

/-- `Bucket::save` on the ask bucket. -/
def saveAsk (store : List AskOrder) (o : AskOrder) : List AskOrder :=
  store.filter (fun x => x.id ≠ o.id) ++ [o]

/-- `Bucket::remove` on the ask bucket. -/
def removeAsk (store : List AskOrder) (id : String) : List AskOrder :=
  store.filter (fun x => x.id ≠ id)

/-- `update_bid_order`: remove the order when closed, else save it. -/
def update_bid_order (store : List BidOrder) (o : BidOrder) : List BidOrder :=
  if o.is_closed then removeBid store o.id else saveBid store o

/-- `update_ask_order`: remove the order when closed, else save it. -/
def update_ask_order (store : List AskOrder) (o : AskOrder) : List AskOrder :=
  if o.is_closed then removeAsk store o.id else saveAsk store o

/-- Key order of the bid bucket scan (ascending order id). -/
def bidKeyLE (a b : BidOrder) : Prop := a.id ≤ b.id

/-- Key order of the ask bucket scan (ascending order id). -/
def askKeyLE (a b : AskOrder) : Prop := a.id ≤ b.id

instance : DecidableRel bidKeyLE := fun a b => inferInstanceAs (Decidable (a.id ≤ b.id))
instance : DecidableRel askKeyLE := fun a b => inferInstanceAs (Decidable (a.id ≤ b.id))

instance : IsTotal BidOrder bidKeyLE := ⟨fun a b => le_total a.id b.id⟩
instance : IsTotal AskOrder askKeyLE := ⟨fun a b => le_total a.id b.id⟩
instance : IsTrans BidOrder bidKeyLE := ⟨fun _ _ _ h h2 => le_trans h h2⟩
instance : IsTrans AskOrder askKeyLE := ⟨fun _ _ _ h h2 => le_trans h h2⟩

/-- The bid bucket range scan: all stored bids in ascending key order.  A
stable sort of the underlying entries is a faithful model of iterating the
keyed store in ascending key order. -/
def scanBids (store : List BidOrder) : List BidOrder :=
  store.insertionSort bidKeyLE

/-- The ask bucket range scan. -/
def scanAsks (store : List AskOrder) : List AskOrder :=
  store.insertionSort askKeyLE

/-- The price-time comparator of `get_bid_orders` read as a total preorder:
`a` sorts no later than `b` iff `a` has the higher price, or prices are equal
and `a` arrived no later. -/
def bidPT (a b : BidOrder) : Prop :=
  b.price < a.price ∨ (a.price = b.price ∧ a.ts ≤ b.ts)

/-- The price-time comparator of `get_ask_orders`. -/
def askPT (a b : AskOrder) : Prop :=
  b.price < a.price ∨ (a.price = b.price ∧ a.ts ≤ b.ts)

instance : DecidableRel bidPT := fun a b =>
  inferInstanceAs (Decidable (b.price < a.price ∨ (a.price = b.price ∧ a.ts ≤ b.ts)))
instance : DecidableRel askPT := fun a b =>
  inferInstanceAs (Decidable (b.price < a.price ∨ (a.price = b.price ∧ a.ts ≤ b.ts)))

instance : IsTotal BidOrder bidPT := by
  constructor
  intro a b
  rcases Nat.lt_trichotomy a.price b.price with h | h | h
  · exact Or.inr (Or.inl h)
  · rcases Nat.le_total a.ts b.ts with h2 | h2
    · exact Or.inl (Or.inr ⟨h, h2⟩)
    · exact Or.inr (Or.inr ⟨h.symm, h2⟩)
  · exact Or.inl (Or.inl h)

instance : IsTotal AskOrder askPT := by
  constructor
  intro a b
  rcases Nat.lt_trichotomy a.price b.price with h | h | h
  · exact Or.inr (Or.inl h)
  · rcases Nat.le_total a.ts b.ts with h2 | h2
    · exact Or.inl (Or.inr ⟨h, h2⟩)
    · exact Or.inr (Or.inr ⟨h.symm, h2⟩)
  · exact Or.inl (Or.inl h)

instance : IsTrans BidOrder bidPT := by
  constructor
  intro a b c hab hbc
  rcases hab with h | ⟨he, ht⟩ <;> rcases hbc with h2 | ⟨he2, ht2⟩
  · exact Or.inl (lt_trans h2 h)
  · exact Or.inl (he2 ▸ h)
  · exact Or.inl (h2.trans_eq he.symm)
  · exact Or.inr ⟨he.trans he2, ht.trans ht2⟩

instance : IsTrans AskOrder askPT := by
  constructor
  intro a b c hab hbc
  rcases hab with h | ⟨he, ht⟩ <;> rcases hbc with h2 | ⟨he2, ht2⟩
  · exact Or.inl (lt_trans h2 h)
  · exact Or.inl (he2 ▸ h)
  · exact Or.inl (h2.trans_eq he.symm)
  · exact Or.inr ⟨he.trans he2, ht.trans ht2⟩

/-- `get_bid_orders`: read all bids then stable-sort by price (highest first)
breaking ties by earliest timestamp (Rust `sort_by` is a stable sort). -/
def get_bid_orders (store : List BidOrder) : List BidOrder :=
  (scanBids store).insertionSort bidPT

/-- `get_ask_orders`: read all asks then stable-sort price-time. -/
def get_ask_orders (store : List AskOrder) : List AskOrder :=
  (scanAsks store).insertionSort askPT

/-!
### Ingest
-/

/-- `try_bid` from `contract.rs`: the full validation pipeline, in source
order, then persist the bid. -/
def try_bid (state : State) (store : List BidOrder) (sender : String)
    (funds_list : List Coin) (id : String) (price : Nat) (ts : Nat) :
    Except ContractError (List BidOrder × Response) :=
  if price = 0 then
    Except.error (ContractError.InvalidPrice "price must be > 0")
  else
    match funds_list with
    | [funds] =>
      if funds.amount = 0 then
        Except.error (ContractError.InvalidFunds "bid amount must be > 0")
      else if funds.denom ≠ state.bid_denom then
        Except.error (ContractError.InvalidFunds
          ("invalid bid denom: got " ++ funds.denom ++ ", require " ++ state.bid_denom))
      else if sender = state.contract_admin then
        Except.error ContractError.Unauthorized
      else if (bidLookup store id).isSome then
        Except.error (ContractError.DuplicateBid id)
      else
        let num := funds.amount * state.ask_increment
        if num % price ≠ 0 then
          Except.error (ContractError.InvalidFunds
            "bid price must yield an integral for proceeds")
        else
          let proceeds := num / price
          if proceeds % state.ask_increment ≠ 0 then
            Except.error (ContractError.InvalidFunds
              "funds must yield a bid amount in the required increments")
          else
            Except.ok
              (saveBid store
                { id := id, price := price, ts := ts, bidder := sender,
                  funds := funds.amount, funds_denom := funds.denom,
                  proceeds := proceeds },
               { msgs := []
                 attributes := [("action", "orderbook.bid"), ("id", id)] })
    | _ =>
      Except.error (ContractError.InvalidFunds "invalid number of bid funds provided")

/-- The sell proceeds computation of `try_ask`:
`funds.amount * Decimal::from_ratio(price, ask_increment)` where `Decimal`
has 18 fractional decimal digits and both the ratio and the multiplication
floor. -/
def askProceeds (funds price incr : Nat) : Nat :=
  funds * (price * 10 ^ 18 / incr) / 10 ^ 18

/-- `try_ask` from `contract.rs`. -/
def try_ask (state : State) (store : List AskOrder) (sender : String)
    (funds_list : List Coin) (id : String) (price : Nat) (ts : Nat) :
    Except ContractError (List AskOrder × Response) :=
  if price = 0 then
    Except.error (ContractError.InvalidPrice "price must be > 0")
  else
    match funds_list with
    | [funds] =>
      if funds.amount = 0 ∨ funds.amount % state.ask_increment ≠ 0 then
        Except.error (ContractError.InvalidFunds
          ("ask amount must be > 0 in the required increments: got " ++ toString funds.amount))
      else if funds.denom ≠ state.ask_denom then
        -- note: the source interpolates `state.bid_denom` into this message
        Except.error (ContractError.InvalidFunds
          ("invalid ask denom: got " ++ funds.denom ++ ", require " ++ state.bid_denom))
      else if sender = state.contract_admin then
        Except.error ContractError.Unauthorized
      else if (askLookup store id).isSome then
        Except.error (ContractError.DuplicateAsk id)
      else
        Except.ok
          (saveAsk store
            { id := id, price := price, ts := ts, asker := sender,
              funds := funds.amount, funds_denom := funds.denom,
              proceeds := askProceeds funds.amount price state.ask_increment },
           { msgs := []
             attributes := [("action", "orderbook.ask"), ("id", id)] })
    | _ =>
      Except.error (ContractError.InvalidFunds "invalid number of ask funds provided")

/-!
### Matching sweep

The sweep accumulates the per-pair `MatchResult`s; the response messages and
attributes of the source are their flattening, in order.
-/

/-- The bank messages of a list of match events, in emission order. -/
def sweepMsgs (evts : List MatchResult) : List BankSend :=
  (evts.map (fun e => e.msgs)).flatten

/-- The `orderbook.match` attributes of a list of match events, in order. -/
def sweepAttrs (evts : List MatchResult) : List (String × String) :=
  evts.map (fun e => ("orderbook.match", "bid:" ++ e.bid.id ++ ",ask:" ++ e.ask.id))

/-- The inner loop of `try_match`: match one ask against the eligible bids,
persisting each matched pair and stopping once the ask is closed. -/
def match_bids (ask : AskOrder) (bids : List BidOrder)
    (bstore : List BidOrder) (astore : List AskOrder) (evts : List MatchResult) :
    Except ContractError (List BidOrder × List AskOrder × List MatchResult) :=
  match bids with
  | [] => Except.ok (bstore, astore, evts)
  | bid :: rest =>
    match match_orders bid ask with
    | Except.error e => Except.error e
    | Except.ok r =>
      let evts2 := evts ++ [r]
      let astore2 := update_ask_order astore r.ask
      let bstore2 := update_bid_order bstore r.bid
      if r.ask.is_closed then Except.ok (bstore2, astore2, evts2)
      else match_bids r.ask rest bstore2 astore2 evts2

/-- The outer loop of `try_match`: for each ask (price-time order), re-read
the bid book, filter the eligible bids, and run the inner loop. -/
def match_asks (now : Nat) (asks : List AskOrder)
    (bstore : List BidOrder) (astore : List AskOrder) (evts : List MatchResult) :
    Except ContractError (List BidOrder × List AskOrder × List MatchResult) :=
  match asks with
  | [] => Except.ok (bstore, astore, evts)
  | ask :: rest =>
    let bids := (get_bid_orders bstore).filter
      (fun bid => decide (ask.price ≤ bid.price) && decide (bid.ts < now))
    match match_bids ask bids bstore astore evts with
    | Except.error e => Except.error e
    | Except.ok (bstore2, astore2, evts2) => match_asks now rest bstore2 astore2 evts2

/-- `try_match` from `contract.rs`: admin-only; select the asks with
`ts < now` in price-time order and match each against the eligible bids. -/
def try_match (state : State) (sender : String) (now : Nat)
    (bstore : List BidOrder) (astore : List AskOrder) :
    Except ContractError (List BidOrder × List AskOrder × List MatchResult) :=
  if sender ≠ state.contract_admin then Except.error ContractError.Unauthorized
  else
    let asks := (get_ask_orders astore).filter (fun ask => decide (ask.ts < now))
    match_asks now asks bstore astore []

/-!
### The contract state machine
-/

/-- Full contract state: config plus the two order stores. -/
structure ContractState where
  config : State
  bids : List BidOrder
  asks : List AskOrder
deriving DecidableEq, Repr

/-- `ExecuteMsg`: a bid, an ask, or a matching sweep. -/
inductive Msg where
  | bid (sender : String) (funds : List Coin) (id : String) (price : Nat)
  | ask (sender : String) (funds : List Coin) (id : String) (price : Nat)
  | doMatch (sender : String)
deriving DecidableEq, Repr

/-- `execute`: dispatch one message at block time `ts` (seconds). -/
def execute (cs : ContractState) (ts : Nat) (m : Msg) :
    Except ContractError (ContractState × Response) :=
  match m with
  | Msg.bid sender funds id price =>
    match try_bid cs.config cs.bids sender funds id price ts with
    | Except.error e => Except.error e
    | Except.ok (store2, resp) => Except.ok ({ cs with bids := store2 }, resp)
  | Msg.ask sender funds id price =>
    match try_ask cs.config cs.asks sender funds id price ts with
    | Except.error e => Except.error e
    | Except.ok (store2, resp) => Except.ok ({ cs with asks := store2 }, resp)
  | Msg.doMatch sender =>
    match try_match cs.config sender ts cs.bids cs.asks with
    | Except.error e => Except.error e
    | Except.ok (bstore2, astore2, evts) =>
      Except.ok ({ cs with bids := bstore2, asks := astore2 },
                 { msgs := sweepMsgs evts, attributes := sweepAttrs evts })

/-- Apply one timestamped message; a failed message leaves the state
unchanged (contract errors abort the transaction). -/
def step (cs : ContractState) (op : Nat × Msg) : ContractState :=
  match execute cs op.1 op.2 with
  | Except.ok (cs2, _) => cs2
  | Except.error _ => cs

/-- Run a trace of timestamped messages. -/
def runTrace (cs : ContractState) (ops : List (Nat × Msg)) : ContractState :=
  ops.foldl step cs

/-- The contract state right after instantiation. -/
def initialState (sender : String) (msg : InitMsg) : ContractState :=
  { config := instantiate sender msg, bids := [], asks := [] }

/-- A state is reachable when some trace of operations starting at an
instantiation produces it. -/
def Reachable (cs : ContractState) : Prop :=
  ∃ sender msg ops, runTrace (initialState sender msg) ops = cs

/-- Store well-formedness: distinct ids, only open orders, and no order
submitted by the admin. -/
def StoreInv (cs : ContractState) : Prop :=
  (cs.bids.map BidOrder.id).Nodup ∧
  (cs.asks.map AskOrder.id).Nodup ∧
  (∀ b ∈ cs.bids, b.is_closed = false) ∧
  (∀ a ∈ cs.asks, a.is_closed = false) ∧
  (∀ b ∈ cs.bids, b.bidder ≠ cs.config.contract_admin) ∧
  (∀ a ∈ cs.asks, a.asker ≠ cs.config.contract_admin)

/-- The bid of the `direct_match` unit test. -/
def sampleBid : BidOrder :=
  { id := "test-bid", price := 1, ts := 100, bidder := "bidder",
    funds := 10, funds_denom := "stablecoin", proceeds := 10000000000 }

/-- The ask of the `direct_match` unit test. -/
def sampleAsk : AskOrder :=
  { id := "test-ask", price := 1, ts := 100, asker := "asker",
    funds := 10000000000, funds_denom := "nhash", proceeds := 10 }

/-- A crossed bid (price 2 against an ask priced 1). -/
def crossBid : BidOrder :=
  { id := "b1", price := 2, ts := 100, bidder := "u",
    funds := 10, funds_denom := "stablecoin", proceeds := 5000000000 }

/-- The ask crossed by `crossBid`. -/
def crossAsk : AskOrder :=
  { id := "a1", price := 1, ts := 100, asker := "v",
    funds := 6000000000, funds_denom := "nhash", proceeds := 6 }

/-!
## A concrete crossed-price trace

A bid at price 2 with 10 stablecoin (proceeds `5 × 10⁹` nhash) against an ask
at price 1 with `6 × 10⁹` nhash (proceeds 6 stablecoin), swept one second
later.
-/

/-- A second bid sharing price and timestamp with `crossBid` but a later id. -/
def tieBid : BidOrder :=
  { id := "b2", price := 2, ts := 100, bidder := "w",
    funds := 4, funds_denom := "stablecoin", proceeds := 2000000000 }

/-- The config produced by instantiation by "admin" with bid denom
"stablecoin". -/
def adminConfig : State := instantiate "admin" { bid_denom := "stablecoin" }

/-- The state right after instantiation by "admin" with bid denom
"stablecoin". -/
def baseState : ContractState := initialState "admin" { bid_denom := "stablecoin" }

/-- Ingest the crossed bid and ask at time 100. -/
def crossIngest : List (Nat × Msg) :=
  [ (100, Msg.bid "u" [{ amount := 10, denom := "stablecoin" }] "b1" 2),
    (100, Msg.ask "v" [{ amount := 6000000000, denom := "nhash" }] "a1" 1) ]

/-- The crossed-price trace including the sweep at time 101. -/
def crossOps : List (Nat × Msg) :=
  crossIngest ++ [(101, Msg.doMatch "admin")]

/-- The bid left over by sweeping the crossed pair: positive funds, zero
proceeds. -/
def residualBid : BidOrder :=
  { id := "b1", price := 2, ts := 100, bidder := "u",
    funds := 4, funds_denom := "stablecoin", proceeds := 0 }

/-!
## Lemmas about `match_pair`
-/

lemma match_pair_bid_funds (b : BidOrder) (a : AskOrder) :
    (match_pair b a).bid.funds = b.funds - a.proceeds := by
  simp only [match_pair]
  split_ifs <;> simp_all <;> omega

lemma match_pair_bid_proceeds (b : BidOrder) (a : AskOrder) :
    (match_pair b a).bid.proceeds = b.proceeds - a.funds := by
  simp only [match_pair]
  split_ifs <;> simp_all <;> omega

lemma match_pair_ask_proceeds (b : BidOrder) (a : AskOrder) :
    (match_pair b a).ask.proceeds = a.proceeds - b.funds := by
  simp only [match_pair]
  split_ifs <;> simp_all <;> omega

lemma match_pair_ask_funds (b : BidOrder) (a : AskOrder) :
    (match_pair b a).ask.funds =
      if a.proceeds - b.funds = 0 then 0 else a.funds - b.proceeds := by
  simp only [match_pair]
  split_ifs <;> simp_all <;> omega

/-- `match_pair` only mutates funds and proceeds of the bid. -/
lemma match_pair_bid_skel (b : BidOrder) (a : AskOrder) :
    (match_pair b a).bid.id = b.id ∧ (match_pair b a).bid.price = b.price ∧
    (match_pair b a).bid.ts = b.ts ∧ (match_pair b a).bid.bidder = b.bidder ∧
    (match_pair b a).bid.funds_denom = b.funds_denom := by
  simp only [match_pair]
  split_ifs <;> simp

/-- `match_pair` only mutates funds and proceeds of the ask. -/
lemma match_pair_ask_skel (b : BidOrder) (a : AskOrder) :
    (match_pair b a).ask.id = a.id ∧ (match_pair b a).ask.price = a.price ∧
    (match_pair b a).ask.ts = a.ts ∧ (match_pair b a).ask.asker = a.asker ∧
    (match_pair b a).ask.funds_denom = a.funds_denom := by
  simp only [match_pair]
  split_ifs <;> simp

/-- The messages of a matched pair: pay the asker `min(A.proceeds, B.funds)`
in the bid denom, deliver `min(B.proceeds, A.funds)` to the bidder in the ask
denom, then the optional residual refund to the asker. -/
lemma match_pair_msgs (b : BidOrder) (a : AskOrder) :
    (match_pair b a).msgs =
      { amount := [{ amount := min a.proceeds b.funds, denom := b.funds_denom }],
        to_address := a.asker } ::
      { amount := [{ amount := min b.proceeds a.funds, denom := a.funds_denom }],
        to_address := b.bidder } ::
      (if a.proceeds - b.funds = 0 ∧ a.funds - b.proceeds ≠ 0 then
        [{ amount := [{ amount := a.funds - b.proceeds, denom := a.funds_denom }],
           to_address := a.asker }]
       else []) := by
  simp only [match_pair]
  split_ifs <;> simp_all <;> omega

/-- Every message of a matched pair goes to the pair's asker or bidder. -/
lemma match_pair_msgs_to (b : BidOrder) (a : AskOrder) :
    ∀ m ∈ (match_pair b a).msgs, m.to_address = a.asker ∨ m.to_address = b.bidder := by
  intro m hm
  rw [match_pair_msgs] at hm
  simp only [List.mem_cons] at hm
  rcases hm with h | h | h
  · subst h; exact Or.inl rfl
  · subst h; exact Or.inr rfl
  · split_ifs at h
    · simp only [List.mem_singleton] at h; subst h; exact Or.inl rfl
    · simp at h

/-!
## C1: per-pair emission amounts and conservation
-/

/-- C1: for every open bid `B` and open ask `A`, `match_orders` emits to the
asker `min(A.proceeds, B.funds)` in the quote (bid funds) denomination and to
the bidder `min(B.proceeds, A.funds)` in the base (ask funds) denomination,
and the returned orders satisfy
`emitted_Dq_to_asker + A.proceeds_after = A.proceeds_before`,
`emitted_Db_to_bidder + B.proceeds_after = B.proceeds_before`,
`emitted_Dq_to_asker ≤ B.funds_before` and
`emitted_Db_to_bidder ≤ A.funds_before`. -/
theorem c1_match_emits_min_and_conserves (bid : BidOrder) (ask : AskOrder)
    (hb : bid.is_closed = false) (ha : ask.is_closed = false) :
    match_orders bid ask = Except.ok (match_pair bid ask) ∧
    (match_pair bid ask).msgs.take 2 =
      [{ amount := [{ amount := min ask.proceeds bid.funds, denom := bid.funds_denom }],
         to_address := ask.asker },
       { amount := [{ amount := min bid.proceeds ask.funds, denom := ask.funds_denom }],
         to_address := bid.bidder }] ∧
    min ask.proceeds bid.funds + (match_pair bid ask).ask.proceeds = ask.proceeds ∧
    min bid.proceeds ask.funds + (match_pair bid ask).bid.proceeds = bid.proceeds ∧
    min ask.proceeds bid.funds ≤ bid.funds ∧
    min bid.proceeds ask.funds ≤ ask.funds := by
  refine ⟨?_, ?_, ?_, ?_, Nat.min_le_right _ _, Nat.min_le_right _ _⟩
  · simp [match_orders, hb, ha]
  · rw [match_pair_msgs]; rfl
  · rw [match_pair_ask_proceeds]; omega
  · rw [match_pair_bid_proceeds]; omega


/-- Witness for C1 at the `direct_match` pair. -/
theorem c1_witness :
    match_orders sampleBid sampleAsk = Except.ok (match_pair sampleBid sampleAsk) ∧
    (match_pair sampleBid sampleAsk).msgs.take 2 =
      [{ amount := [{ amount := min sampleAsk.proceeds sampleBid.funds,
                      denom := sampleBid.funds_denom }],
         to_address := sampleAsk.asker },
       { amount := [{ amount := min sampleBid.proceeds sampleAsk.funds,
                      denom := sampleAsk.funds_denom }],
         to_address := sampleBid.bidder }] ∧
    min sampleAsk.proceeds sampleBid.funds + (match_pair sampleBid sampleAsk).ask.proceeds
      = sampleAsk.proceeds ∧
    min sampleBid.proceeds sampleAsk.funds + (match_pair sampleBid sampleAsk).bid.proceeds
      = sampleBid.proceeds ∧
    min sampleAsk.proceeds sampleBid.funds ≤ sampleBid.funds ∧
    min sampleBid.proceeds sampleAsk.funds ≤ sampleAsk.funds :=
  c1_match_emits_min_and_conserves sampleBid sampleAsk rfl rfl

/-!
## C2: a crossed pair closes at least one side
-/

/-- C2: for every open bid and open ask with `ask.price ≤ bid.price` and the
insertion relations (`bid.funds × I = bid.proceeds × bid.price` and
`ask.proceeds × I = ask.funds × ask.price`, `I > 0`, prices positive), after
`match_orders` (whose residual refund zeroes the ask funds once the ask
proceeds reach zero) the ask is closed or the bid is closed (or both). -/
theorem c2_crossed_pair_closes_one (incr : Nat) (bid : BidOrder) (ask : AskOrder)
    (hI : 0 < incr) (hap : 0 < ask.price) (hcross : ask.price ≤ bid.price)
    (hb : bid.is_closed = false) (ha : ask.is_closed = false)
    (hbrel : bid.funds * incr = bid.proceeds * bid.price)
    (harel : ask.proceeds * incr = ask.funds * ask.price) :
    match_orders bid ask = Except.ok (match_pair bid ask) ∧
    ((match_pair bid ask).ask.is_closed = true ∨
     (match_pair bid ask).bid.is_closed = true) := by
  refine ⟨by simp [match_orders, hb, ha], ?_⟩
  by_cases hle : ask.proceeds ≤ bid.funds
  · left
    have h1 : (match_pair bid ask).ask.proceeds = 0 := by
      rw [match_pair_ask_proceeds]; omega
    have h2 : (match_pair bid ask).ask.funds = 0 := by
      rw [match_pair_ask_funds, if_pos (by omega)]
    simp [AskOrder.is_closed, h1, h2]
  · right
    push_neg at hle
    have h1 : bid.proceeds * bid.price < ask.funds * bid.price := by
      calc bid.proceeds * bid.price = bid.funds * incr := hbrel.symm
        _ < ask.proceeds * incr := mul_lt_mul_of_pos_right hle hI
        _ = ask.funds * ask.price := harel
        _ ≤ ask.funds * bid.price := mul_le_mul_of_nonneg_left hcross (Nat.zero_le _)
    have hlt : bid.proceeds < ask.funds := lt_of_mul_lt_mul_right h1 (Nat.zero_le _)
    have h2 : (match_pair bid ask).bid.funds = 0 := by
      rw [match_pair_bid_funds]; omega
    have h3 : (match_pair bid ask).bid.proceeds = 0 := by
      rw [match_pair_bid_proceeds]; omega
    simp [BidOrder.is_closed, h2, h3]


/-- Witness for C2 at a concretely crossed pair. -/
theorem c2_witness :
    match_orders crossBid crossAsk = Except.ok (match_pair crossBid crossAsk) ∧
    ((match_pair crossBid crossAsk).ask.is_closed = true ∨
     (match_pair crossBid crossAsk).bid.is_closed = true) :=
  c2_crossed_pair_closes_one 1000000000 crossBid crossAsk (by decide) (by decide)
    (by decide) rfl rfl (by decide) (by decide)


/-!
## C7: a sweep can leave an open bid with zero proceeds in the store
-/

/-- C7: on the crossed-price trace the sweep closes and removes the ask
(refunding its leftover `10⁹` nhash to the asker) but persists a bid with
`funds = 4 > 0` and `proceeds = 0`; that bid is open under `is_closed` and
remains in the store. -/
theorem c7_sweep_leaves_open_bid_with_zero_proceeds :
    execute (runTrace baseState crossIngest) 101 (Msg.doMatch "admin") =
      Except.ok
        ({ config := instantiate "admin" { bid_denom := "stablecoin" },
           bids := [residualBid], asks := [] },
         { msgs :=
             [{ amount := [{ amount := 6, denom := "stablecoin" }], to_address := "v" },
              { amount := [{ amount := 5000000000, denom := "nhash" }], to_address := "u" },
              { amount := [{ amount := 1000000000, denom := "nhash" }], to_address := "v" }],
           attributes := [("orderbook.match", "bid:b1,ask:a1")] }) ∧
    residualBid.funds ≠ 0 ∧ residualBid.proceeds = 0 ∧
    residualBid.is_closed = false :=
  ⟨rfl, by decide, rfl, rfl⟩

/-!
## C3: the ingest integrality relation is not an invariant of sweeps
-/

/-- C3 counterexample: the crossed-price trace reaches a state whose bid
store contains a bid violating `bid.funds × I = bid.proceeds × bid.price`
(the residual bid has `funds = 4`, `proceeds = 0`). -/
theorem c3_counterexample :
    Reachable (runTrace baseState crossOps) ∧
    ((runTrace baseState crossOps).bids.all
      (fun b => b.funds * (runTrace baseState crossOps).config.ask_increment
          == b.proceeds * b.price)) = false :=
  ⟨⟨"admin", { bid_denom := "stablecoin" }, crossOps, rfl⟩, rfl⟩

/-- With the deployed increment `10⁹`, the `Decimal`-based ask proceeds
computation is exact on funds that are a multiple of the increment. -/
lemma askProceeds_spec (k price : Nat) :
    askProceeds (1000000000 * k) price 1000000000 = k * price := by
  have e1 : price * 10 ^ 18 / 1000000000 = price * 1000000000 := by
    rw [show (10 : Nat) ^ 18 = 1000000000 * 1000000000 by norm_num, ← mul_assoc,
        Nat.mul_div_cancel _ (by norm_num : (0 : Nat) < 1000000000)]
  unfold askProceeds
  rw [e1, show 1000000000 * k * (price * 1000000000) = k * price * 10 ^ 18 by ring]
  exact Nat.mul_div_cancel _ (by norm_num)

/-- C3 amended: the integrality relations hold for orders at the moment they
are persisted by ingest — every order in a post-ingest store is either an
order that was already there or satisfies its side's relation (for asks,
with the deployed increment `10⁹`).  Sweeps do not preserve the relations. -/
theorem c3_amended_ingest_integrality :
    (∀ (state : State) (store : List BidOrder) (sender : String)
        (funds_list : List Coin) (id : String) (price ts : Nat)
        (store2 : List BidOrder) (resp : Response),
        try_bid state store sender funds_list id price ts = Except.ok (store2, resp) →
        ∀ b ∈ store2, b ∈ store ∨ b.funds * state.ask_increment = b.proceeds * b.price) ∧
    (∀ (state : State) (store : List AskOrder) (sender : String)
        (funds_list : List Coin) (id : String) (price ts : Nat)
        (store2 : List AskOrder) (resp : Response),
        state.ask_increment = 1000000000 →
        try_ask state store sender funds_list id price ts = Except.ok (store2, resp) →
        ∀ a ∈ store2, a ∈ store ∨ a.proceeds * state.ask_increment = a.funds * a.price) := by
  constructor
  · intro state store sender funds_list id price ts store2 resp h b hb
    rcases funds_list with _ | ⟨funds, _ | ⟨f2, rest⟩⟩ <;>
      simp only [try_bid] at h <;>
      split_ifs at h with hp hf hd hs hdup hmod hinc <;>
      try exact Except.noConfusion h
    rw [Except.ok.injEq, Prod.mk.injEq] at h
    obtain ⟨hst, -⟩ := h
    subst hst
    rcases List.mem_append.mp hb with hmem | hmem
    · exact Or.inl (List.mem_of_mem_filter hmem)
    · rcases List.mem_singleton.mp hmem with rfl
      right
      have hdvd : price ∣ funds.amount * state.ask_increment :=
        Nat.dvd_of_mod_eq_zero (not_not.mp hmod)
      exact (Nat.div_mul_cancel hdvd).symm
  · intro state store sender funds_list id price ts store2 resp hincr h a ha
    rcases funds_list with _ | ⟨funds, _ | ⟨f2, rest⟩⟩ <;>
      simp only [try_ask] at h <;>
      split_ifs at h with hp hf hd hs hdup <;>
      try exact Except.noConfusion h
    rw [Except.ok.injEq, Prod.mk.injEq] at h
    obtain ⟨hst, -⟩ := h
    subst hst
    rcases List.mem_append.mp ha with hmem | hmem
    · exact Or.inl (List.mem_of_mem_filter hmem)
    · rcases List.mem_singleton.mp hmem with rfl
      right
      push_neg at hf
      obtain ⟨hne, hmod⟩ := hf
      rw [hincr] at hmod ⊢
      obtain ⟨k, hk⟩ := Nat.dvd_of_mod_eq_zero hmod
      simp only [hk, askProceeds_spec]
      ring

/-!
## C4: construction and the configuration it binds
-/

/-- C4 counterexample: the init message carries only the bid (quote) denom;
for concrete instantiations the base denom is the constant "nhash" and the
increment the constant `10⁹` — neither is caller-supplied and there is no
default to override. -/
theorem c4_counterexample :
    instantiate "alice" { bid_denom := "gold" } =
      { ask_denom := "nhash", ask_increment := 1000000000,
        bid_denom := "gold", contract_admin := "alice" } ∧
    instantiate "bob" { bid_denom := "usd" } =
      { ask_denom := "nhash", ask_increment := 1000000000,
        bid_denom := "usd", contract_admin := "bob" } :=
  ⟨rfl, rfl⟩

/-- C4 amended: construction binds the engine to the hardcoded base denom
"nhash", the hardcoded base increment `10⁹`, the caller-supplied quote denom
and the instantiating sender as admin; bid and ask validation then uses the
configured values. -/
theorem c4_amended_construction_binds_config :
    (∀ (sender : String) (msg : InitMsg),
        instantiate sender msg =
          { ask_denom := "nhash", ask_increment := 1000000000,
            bid_denom := msg.bid_denom, contract_admin := sender }) ∧
    (∀ (state : State) (store : List BidOrder) (sender : String) (c : Coin)
        (id : String) (price ts : Nat),
        price ≠ 0 → c.amount ≠ 0 → c.denom ≠ state.bid_denom →
        try_bid state store sender [c] id price ts =
          Except.error (ContractError.InvalidFunds
            ("invalid bid denom: got " ++ c.denom ++ ", require " ++ state.bid_denom))) ∧
    (∀ (state : State) (store : List AskOrder) (sender : String) (c : Coin)
        (id : String) (price ts : Nat),
        price ≠ 0 → c.amount % state.ask_increment ≠ 0 →
        try_ask state store sender [c] id price ts =
          Except.error (ContractError.InvalidFunds
            ("ask amount must be > 0 in the required increments: got "
              ++ toString c.amount))) := by
  refine ⟨fun sender msg => rfl, ?_, ?_⟩
  · intro state store sender c id price ts hp ha hd
    simp [try_bid, hp, ha, hd]
  · intro state store sender c id price ts hp hm
    simp [try_ask, hp, hm]

/-- Witness for C4 amended at concrete inputs. -/
theorem c4_witness :
    instantiate "admin" { bid_denom := "stablecoin" } =
      { ask_denom := "nhash", ask_increment := 1000000000,
        bid_denom := "stablecoin", contract_admin := "admin" } ∧
    try_bid adminConfig [] "u" [{ amount := 5, denom := "usd" }] "x" 1 0 =
      Except.error (ContractError.InvalidFunds
        "invalid bid denom: got usd, require stablecoin") ∧
    try_ask adminConfig [] "u" [{ amount := 123456789, denom := "nhash" }] "x" 1 0 =
      Except.error (ContractError.InvalidFunds
        "ask amount must be > 0 in the required increments: got 123456789") := by
  refine ⟨c4_amended_construction_binds_config.1 "admin" { bid_denom := "stablecoin" }, ?_, ?_⟩
  · exact c4_amended_construction_binds_config.2.1 adminConfig [] "u"
      { amount := 5, denom := "usd" } "x" 1 0 (by decide) (by decide) (by decide)
  · exact c4_amended_construction_binds_config.2.2 adminConfig [] "u"
      { amount := 123456789, denom := "nhash" } "x" 1 0 (by decide) (by decide)

/-- Witness for C3 amended: the bid persisted by a concrete successful ingest
satisfies the integrality relation. -/
theorem c3_amended_witness :
    crossBid ∈ ([] : List BidOrder) ∨
    crossBid.funds * adminConfig.ask_increment = crossBid.proceeds * crossBid.price :=
  c3_amended_ingest_integrality.1 adminConfig [] "u"
    [{ amount := 10, denom := "stablecoin" }] "b1" 2 100
    (saveBid [] crossBid)
    { msgs := [], attributes := [("action", "orderbook.bid"), ("id", "b1")] }
    rfl crossBid (by simp [saveBid])

/-!
## C5: the bid validation pipeline
-/

/-- C5: the bid checks run in source order — zero price, funds entry count,
zero amount, wrong denom, admin sender, duplicate id, the two integrality
checks — the first failing check determines the error (the two integrality
failures carry distinct messages), and on success the bid is persisted with
`proceeds = funds × I / price` and no transfer messages are produced. -/
theorem c5_bid_pipeline (state : State) (store : List BidOrder) (sender : String)
    (id : String) (price ts : Nat) :
    (∀ funds_list, price = 0 →
      try_bid state store sender funds_list id price ts =
        Except.error (ContractError.InvalidPrice "price must be > 0")) ∧
    (∀ funds_list, price ≠ 0 → funds_list.length ≠ 1 →
      try_bid state store sender funds_list id price ts =
        Except.error (ContractError.InvalidFunds "invalid number of bid funds provided")) ∧
    (∀ c : Coin, price ≠ 0 → c.amount = 0 →
      try_bid state store sender [c] id price ts =
        Except.error (ContractError.InvalidFunds "bid amount must be > 0")) ∧
    (∀ c : Coin, price ≠ 0 → c.amount ≠ 0 → c.denom ≠ state.bid_denom →
      try_bid state store sender [c] id price ts =
        Except.error (ContractError.InvalidFunds
          ("invalid bid denom: got " ++ c.denom ++ ", require " ++ state.bid_denom))) ∧
    (∀ c : Coin, price ≠ 0 → c.amount ≠ 0 → c.denom = state.bid_denom →
      sender = state.contract_admin →
      try_bid state store sender [c] id price ts =
        Except.error ContractError.Unauthorized) ∧
    (∀ c : Coin, price ≠ 0 → c.amount ≠ 0 → c.denom = state.bid_denom →
      sender ≠ state.contract_admin → (bidLookup store id).isSome = true →
      try_bid state store sender [c] id price ts =
        Except.error (ContractError.DuplicateBid id)) ∧
    (∀ c : Coin, price ≠ 0 → c.amount ≠ 0 → c.denom = state.bid_denom →
      sender ≠ state.contract_admin → (bidLookup store id).isSome = false →
      c.amount * state.ask_increment % price ≠ 0 →
      try_bid state store sender [c] id price ts =
        Except.error (ContractError.InvalidFunds
          "bid price must yield an integral for proceeds")) ∧
    (∀ c : Coin, price ≠ 0 → c.amount ≠ 0 → c.denom = state.bid_denom →
      sender ≠ state.contract_admin → (bidLookup store id).isSome = false →
      c.amount * state.ask_increment % price = 0 →
      c.amount * state.ask_increment / price % state.ask_increment ≠ 0 →
      try_bid state store sender [c] id price ts =
        Except.error (ContractError.InvalidFunds
          "funds must yield a bid amount in the required increments")) ∧
    (∀ c : Coin, price ≠ 0 → c.amount ≠ 0 → c.denom = state.bid_denom →
      sender ≠ state.contract_admin → (bidLookup store id).isSome = false →
      c.amount * state.ask_increment % price = 0 →
      c.amount * state.ask_increment / price % state.ask_increment = 0 →
      try_bid state store sender [c] id price ts =
        Except.ok
          (saveBid store
            { id := id, price := price, ts := ts, bidder := sender,
              funds := c.amount, funds_denom := c.denom,
              proceeds := c.amount * state.ask_increment / price },
           { msgs := []
             attributes := [("action", "orderbook.bid"), ("id", id)] })) ∧
    (ContractError.InvalidFunds "bid price must yield an integral for proceeds" ≠
      ContractError.InvalidFunds "funds must yield a bid amount in the required increments") := by
  refine ⟨?_, ?_, ?_, ?_, ?_, ?_, ?_, ?_, ?_, by decide⟩
  · intro funds_list hp
    simp [try_bid, hp]
  · intro funds_list hp hlen
    rcases funds_list with _ | ⟨c, _ | ⟨d, r⟩⟩
    · simp [try_bid, hp]
    · simp at hlen
    · simp [try_bid, hp]
  · intro c hp ha
    simp [try_bid, hp, ha]
  · intro c hp ha hd
    simp [try_bid, hp, ha, hd]
  · intro c hp ha hd hs
    simp [try_bid, hp, ha, hd, hs]
  · intro c hp ha hd hs hdup
    simp [try_bid, hp, ha, hd, hs, hdup]
  · intro c hp ha hd hs hdup hmod
    simp [try_bid, hp, ha, hd, hs, hdup, hmod]
  · intro c hp ha hd hs hdup hmod hinc
    simp [try_bid, hp, ha, hd, hs, hdup, hmod, hinc]
  · intro c hp ha hd hs hdup hmod hinc
    simp [try_bid, hp, ha, hd, hs, hdup, hmod, hinc]

/-- Witness for C5: a concrete successful ingest and a concrete zero-price
rejection. -/
theorem c5_witness :
    try_bid adminConfig [] "u" [{ amount := 10, denom := "stablecoin" }] "b1" 2 100 =
      Except.ok
        (saveBid []
          { id := "b1", price := 2, ts := 100, bidder := "u",
            funds := 10, funds_denom := "stablecoin",
            proceeds := 10 * adminConfig.ask_increment / 2 },
         { msgs := []
           attributes := [("action", "orderbook.bid"), ("id", "b1")] }) ∧
    try_bid adminConfig [] "u" [{ amount := 10, denom := "stablecoin" }] "b1" 0 100 =
      Except.error (ContractError.InvalidPrice "price must be > 0") := by
  constructor
  · exact (c5_bid_pipeline adminConfig [] "u" "b1" 2 100).2.2.2.2.2.2.2.2.1
      { amount := 10, denom := "stablecoin" } (by decide) (by decide) rfl
      (by decide) rfl (by decide) (by decide)
  · exact (c5_bid_pipeline adminConfig [] "u" "b1" 0 100).1
      [{ amount := 10, denom := "stablecoin" }] rfl

/-!
## C6: query order — sorted, stable, deterministic
-/

/-- Sorting a list by a key order equivalent to `key a ≤ key b` is determined
by the contents alone when the keys are distinct: any two permuted inputs
sort to the same list. -/
lemma insertionSort_key_eq_of_perm {α : Type} (r : α → α → Prop) [DecidableRel r]
    [IsTotal α r] [IsTrans α r] (key : α → String)
    (hkey : ∀ a b, r a b ↔ key a ≤ key b)
    {l1 l2 : List α} (hp : l1 ~ l2) (hnd : (l1.map key).Nodup) :
    l1.insertionSort r = l2.insertionSort r := by
  have hnd2 : (l2.map key).Nodup := ((hp.map key).nodup_iff).mp hnd
  have strict : ∀ (l : List α), (l.map key).Nodup →
      (l.insertionSort r).Pairwise (fun a b => key a < key b) := by
    intro l hnl
    have hs : (l.insertionSort r).Pairwise r := List.sorted_insertionSort r l
    have hnls : ((l.insertionSort r).map key).Nodup :=
      (((List.perm_insertionSort r l).map key).nodup_iff).mpr hnl
    rw [List.Nodup, List.pairwise_map] at hnls
    exact (hs.and hnls).imp (fun hab =>
      lt_of_le_of_ne ((hkey _ _).mp hab.1) hab.2)
  have hperm : l1.insertionSort r ~ l2.insertionSort r :=
    (List.perm_insertionSort r l1).trans (hp.trans (List.perm_insertionSort r l2).symm)
  haveI : IsAntisymm α (fun a b => key a < key b) :=
    ⟨fun a b h1 h2 => absurd h2 (lt_asymm h1)⟩
  exact List.eq_of_perm_of_sorted hperm (strict l1 hnd) (strict l2 hnd2)

/-- The bid query is determined by the store contents. -/
lemma get_bid_orders_eq_of_perm {l1 l2 : List BidOrder} (hp : l1 ~ l2)
    (hnd : (l1.map BidOrder.id).Nodup) :
    get_bid_orders l1 = get_bid_orders l2 := by
  unfold get_bid_orders scanBids
  rw [insertionSort_key_eq_of_perm bidKeyLE BidOrder.id (fun a b => Iff.rfl) hp hnd]

/-- The ask query is determined by the store contents. -/
lemma get_ask_orders_eq_of_perm {l1 l2 : List AskOrder} (hp : l1 ~ l2)
    (hnd : (l1.map AskOrder.id).Nodup) :
    get_ask_orders l1 = get_ask_orders l2 := by
  unfold get_ask_orders scanAsks
  rw [insertionSort_key_eq_of_perm askKeyLE AskOrder.id (fun a b => Iff.rfl) hp hnd]

/-- C6: `get_bids`, `get_asks` and the sweep's ask selection return the
stored orders sorted highest price first with ties broken by earliest
timestamp; the sort is stable (tied pairs keep their scan order), and the
same store contents — any permutation with distinct ids — yield the same
output sequence. -/
theorem c6_queries_sorted_stable_deterministic
    (bstore : List BidOrder) (astore : List AskOrder) :
    (get_bid_orders bstore).Sorted bidPT ∧
    get_bid_orders bstore ~ bstore ∧
    (∀ a b : BidOrder, bidPT a b → [a, b] <+ scanBids bstore →
      [a, b] <+ get_bid_orders bstore) ∧
    (∀ bstore2, bstore ~ bstore2 → (bstore.map BidOrder.id).Nodup →
      get_bid_orders bstore = get_bid_orders bstore2) ∧
    (get_ask_orders astore).Sorted askPT ∧
    get_ask_orders astore ~ astore ∧
    (∀ a b : AskOrder, askPT a b → [a, b] <+ scanAsks astore →
      [a, b] <+ get_ask_orders astore) ∧
    (∀ astore2, astore ~ astore2 → (astore.map AskOrder.id).Nodup →
      get_ask_orders astore = get_ask_orders astore2) ∧
    (∀ now : Nat,
      ((get_ask_orders astore).filter (fun ask => decide (ask.ts < now))).Sorted askPT) ∧
    (∀ (now : Nat) (p : Nat),
      ((get_bid_orders bstore).filter
        (fun bid => decide (p ≤ bid.price) && decide (bid.ts < now))).Sorted bidPT) := by
  refine ⟨List.sorted_insertionSort bidPT _,
    (List.perm_insertionSort bidPT _).trans (List.perm_insertionSort bidKeyLE bstore),
    fun a b hab h => List.pair_sublist_insertionSort hab h,
    fun bstore2 hp hnd => get_bid_orders_eq_of_perm hp hnd,
    List.sorted_insertionSort askPT _,
    (List.perm_insertionSort askPT _).trans (List.perm_insertionSort askKeyLE astore),
    fun a b hab h => List.pair_sublist_insertionSort hab h,
    fun astore2 hp hnd => get_ask_orders_eq_of_perm hp hnd,
    fun now => (List.sorted_insertionSort askPT _).filter _,
    fun now p => (List.sorted_insertionSort bidPT _).filter _⟩

/-- Witness for C6: concrete sortedness and stability, and determinism on a
concretely permuted two-bid store. -/
theorem c6_witness :
    (get_bid_orders [crossBid, tieBid]).Sorted bidPT ∧
    get_bid_orders [crossBid, tieBid] = get_bid_orders [tieBid, crossBid] := by
  constructor
  · exact (c6_queries_sorted_stable_deterministic [crossBid, tieBid] []).1
  · exact (c6_queries_sorted_stable_deterministic [crossBid, tieBid] []).2.2.2.1
      [tieBid, crossBid] (List.Perm.swap tieBid crossBid []) (by decide)

/-!
## Store update lemmas
-/

lemma mem_saveBid {store : List BidOrder} {o r : BidOrder} :
    o ∈ saveBid store r → o ∈ store ∨ o = r := by
  intro h
  rcases List.mem_append.mp h with h | h
  · exact Or.inl (List.mem_of_mem_filter h)
  · exact Or.inr (List.mem_singleton.mp h)

lemma mem_saveAsk {store : List AskOrder} {o r : AskOrder} :
    o ∈ saveAsk store r → o ∈ store ∨ o = r := by
  intro h
  rcases List.mem_append.mp h with h | h
  · exact Or.inl (List.mem_of_mem_filter h)
  · exact Or.inr (List.mem_singleton.mp h)

lemma mem_update_bid {store : List BidOrder} {o r : BidOrder} :
    o ∈ update_bid_order store r → o ∈ store ∨ o = r := by
  unfold update_bid_order removeBid
  split_ifs <;> intro h
  · exact Or.inl (List.mem_of_mem_filter h)
  · exact mem_saveBid h

lemma mem_update_ask {store : List AskOrder} {o r : AskOrder} :
    o ∈ update_ask_order store r → o ∈ store ∨ o = r := by
  unfold update_ask_order removeAsk
  split_ifs <;> intro h
  · exact Or.inl (List.mem_of_mem_filter h)
  · exact mem_saveAsk h

lemma mem_update_bid_of_ne {store : List BidOrder} {o : BidOrder} (r : BidOrder)
    (h : o ∈ store) (hne : o.id ≠ r.id) : o ∈ update_bid_order store r := by
  unfold update_bid_order removeBid saveBid
  split_ifs
  · exact List.mem_filter.mpr ⟨h, by simpa using hne⟩
  · exact List.mem_append.mpr (Or.inl (List.mem_filter.mpr ⟨h, by simpa using hne⟩))

lemma mem_update_ask_of_ne {store : List AskOrder} {o : AskOrder} (r : AskOrder)
    (h : o ∈ store) (hne : o.id ≠ r.id) : o ∈ update_ask_order store r := by
  unfold update_ask_order removeAsk saveAsk
  split_ifs
  · exact List.mem_filter.mpr ⟨h, by simpa using hne⟩
  · exact List.mem_append.mpr (Or.inl (List.mem_filter.mpr ⟨h, by simpa using hne⟩))

lemma saveBid_nodup {store : List BidOrder} (r : BidOrder)
    (h : (store.map BidOrder.id).Nodup) :
    ((saveBid store r).map BidOrder.id).Nodup := by
  unfold saveBid
  rw [List.map_append, List.nodup_append]
  refine ⟨((List.filter_sublist store).map BidOrder.id).nodup h, List.nodup_singleton _, ?_⟩
  intro x hx
  simp only [List.mem_map, List.mem_filter] at hx
  obtain ⟨b, ⟨-, hb⟩, rfl⟩ := hx
  simp only [List.mem_singleton, List.map_cons, List.map_nil]
  intro hcon
  exact (by simpa using hb : b.id ≠ r.id) (by simpa using hcon)

lemma saveAsk_nodup {store : List AskOrder} (r : AskOrder)
    (h : (store.map AskOrder.id).Nodup) :
    ((saveAsk store r).map AskOrder.id).Nodup := by
  unfold saveAsk
  rw [List.map_append, List.nodup_append]
  refine ⟨((List.filter_sublist store).map AskOrder.id).nodup h, List.nodup_singleton _, ?_⟩
  intro x hx
  simp only [List.mem_map, List.mem_filter] at hx
  obtain ⟨b, ⟨-, hb⟩, rfl⟩ := hx
  simp only [List.mem_singleton, List.map_cons, List.map_nil]
  intro hcon
  exact (by simpa using hb : b.id ≠ r.id) (by simpa using hcon)

lemma update_bid_nodup {store : List BidOrder} (r : BidOrder)
    (h : (store.map BidOrder.id).Nodup) :
    ((update_bid_order store r).map BidOrder.id).Nodup := by
  unfold update_bid_order removeBid
  split_ifs
  · exact ((List.filter_sublist store).map BidOrder.id).nodup h
  · exact saveBid_nodup r h

lemma update_ask_nodup {store : List AskOrder} (r : AskOrder)
    (h : (store.map AskOrder.id).Nodup) :
    ((update_ask_order store r).map AskOrder.id).Nodup := by
  unfold update_ask_order removeAsk
  split_ifs
  · exact ((List.filter_sublist store).map AskOrder.id).nodup h
  · exact saveAsk_nodup r h

lemma update_bid_open {store : List BidOrder} {r : BidOrder}
    (h : ∀ o ∈ store, o.is_closed = false) :
    ∀ o ∈ update_bid_order store r, o.is_closed = false := by
  intro o ho
  unfold update_bid_order removeBid at ho
  split_ifs at ho with hc
  · exact h o (List.mem_of_mem_filter ho)
  · rcases mem_saveBid ho with hm | rfl
    · exact h o hm
    · exact Bool.not_eq_true _ ▸ (by simpa using hc)

lemma update_ask_open {store : List AskOrder} {r : AskOrder}
    (h : ∀ o ∈ store, o.is_closed = false) :
    ∀ o ∈ update_ask_order store r, o.is_closed = false := by
  intro o ho
  unfold update_ask_order removeAsk at ho
  split_ifs at ho with hc
  · exact h o (List.mem_of_mem_filter ho)
  · rcases mem_saveAsk ho with hm | rfl
    · exact h o hm
    · exact Bool.not_eq_true _ ▸ (by simpa using hc)

/-- Two members of a bid store with distinct ids and the same id are equal. -/
lemma bid_eq_of_id_eq {store : List BidOrder} (hnd : (store.map BidOrder.id).Nodup)
    {x y : BidOrder} (hx : x ∈ store) (hy : y ∈ store) (hid : x.id = y.id) : x = y := by
  classical
  by_contra hne
  have := List.inj_on_of_nodup_map hnd hx hy hid
  exact hne this

lemma ask_eq_of_id_eq {store : List AskOrder} (hnd : (store.map AskOrder.id).Nodup)
    {x y : AskOrder} (hx : x ∈ store) (hy : y ∈ store) (hid : x.id = y.id) : x = y := by
  classical
  by_contra hne
  have := List.inj_on_of_nodup_map hnd hx hy hid
  exact hne this

/-!
## The inner matching loop
-/

/-- Master specification of the inner loop `match_bids`: given an open ask,
a list of open bids with distinct ids drawn (by id, ts, bidder) from the bid
store, and well-formed stores, the loop succeeds; the resulting stores keep
distinct ids and only open orders; untouched orders survive unchanged; every
new store entry descends from a stored order; and every emitted event pairs
one of the given bids with the given ask and sends only to that pair's asker
and bidder. -/
lemma match_bids_spec (ask : AskOrder) (bids : List BidOrder)
    (bstore : List BidOrder) (astore : List AskOrder) (evts : List MatchResult)
    (ha : ask.is_closed = false)
    (hbids_open : ∀ b ∈ bids, b.is_closed = false)
    (hbids_nd : (bids.map BidOrder.id).Nodup)
    (hbids_mem : ∀ b ∈ bids, ∃ b0 ∈ bstore, b.id = b0.id ∧ b.ts = b0.ts ∧ b.bidder = b0.bidder)
    (hb_nd : (bstore.map BidOrder.id).Nodup)
    (hb_open : ∀ o ∈ bstore, o.is_closed = false)
    (han_nd : (astore.map AskOrder.id).Nodup)
    (han_open : ∀ o ∈ astore, o.is_closed = false) :
    ∃ bstore2 astore2 evtsNew,
      match_bids ask bids bstore astore evts = Except.ok (bstore2, astore2, evts ++ evtsNew) ∧
      (∀ o ∈ bstore2, ∃ o0 ∈ bstore, o.id = o0.id ∧ o.ts = o0.ts ∧ o.bidder = o0.bidder) ∧
      (∀ o ∈ bstore, (∀ b ∈ bids, b.id ≠ o.id) → o ∈ bstore2) ∧
      (bstore2.map BidOrder.id).Nodup ∧
      (∀ o ∈ bstore2, o.is_closed = false) ∧
      (∀ o ∈ astore2, o ∈ astore ∨ (o.id = ask.id ∧ o.ts = ask.ts ∧ o.asker = ask.asker)) ∧
      (∀ o ∈ astore, o.id ≠ ask.id → o ∈ astore2) ∧
      (astore2.map AskOrder.id).Nodup ∧
      (∀ o ∈ astore2, o.is_closed = false) ∧
      (∀ e ∈ evtsNew,
        (∃ b0 ∈ bids, e.bid.id = b0.id ∧ e.bid.ts = b0.ts ∧ e.bid.bidder = b0.bidder) ∧
        (e.ask.id = ask.id ∧ e.ask.ts = ask.ts ∧ e.ask.asker = ask.asker) ∧
        (∀ m ∈ e.msgs, m.to_address = e.ask.asker ∨ m.to_address = e.bid.bidder)) := by
  induction bids generalizing ask bstore astore evts with
  | nil =>
    refine ⟨bstore, astore, [], by simp [match_bids], ?_, ?_, hb_nd, hb_open, ?_, ?_,
      han_nd, han_open, ?_⟩
    · intro o ho; exact ⟨o, ho, rfl, rfl, rfl⟩
    · intro o ho _; exact ho
    · intro o ho; exact Or.inl ho
    · intro o ho _; exact ho
    · intro e he; cases he
  | cons bid rest ih =>
    have hbop : bid.is_closed = false := hbids_open bid (List.mem_cons_self _ _)
    have hmo : match_orders bid ask = Except.ok (match_pair bid ask) := by
      simp [match_orders, hbop, ha]
    obtain ⟨hbid_id, hbid_price, hbid_ts, hbid_bidder, hbid_fd⟩ := match_pair_bid_skel bid ask
    obtain ⟨hask_id, hask_price, hask_ts, hask_asker, hask_fd⟩ := match_pair_ask_skel bid ask
    have hmsgs := match_pair_msgs_to bid ask
    set r := match_pair bid ask with hr
    by_cases hclosed : r.ask.is_closed = true
    · refine ⟨update_bid_order bstore r.bid, update_ask_order astore r.ask, [r],
        ?_, ?_, ?_, update_bid_nodup r.bid hb_nd, update_bid_open hb_open,
        ?_, ?_, update_ask_nodup r.ask han_nd, update_ask_open han_open, ?_⟩
      · simp [match_bids, hmo, hclosed]
      · intro o ho
        rcases mem_update_bid ho with hm | rfl
        · exact ⟨o, hm, rfl, rfl, rfl⟩
        · obtain ⟨b0, hb0, h1, h2, h3⟩ := hbids_mem bid (List.mem_cons_self _ _)
          exact ⟨b0, hb0, hbid_id.trans h1, hbid_ts.trans h2, hbid_bidder.trans h3⟩
      · intro o ho hne
        refine mem_update_bid_of_ne r.bid ho (fun hcon => ?_)
        rw [hbid_id] at hcon
        exact hne bid (List.mem_cons_self _ _) hcon.symm
      · intro o ho
        rcases mem_update_ask ho with hm | rfl
        · exact Or.inl hm
        · exact Or.inr ⟨hask_id, hask_ts, hask_asker⟩
      · intro o ho hne
        exact mem_update_ask_of_ne r.ask ho (by rw [hask_id]; exact hne)
      · intro e he
        rcases List.mem_singleton.mp he with rfl
        refine ⟨⟨bid, List.mem_cons_self _ _, hbid_id, hbid_ts, hbid_bidder⟩,
          ⟨hask_id, hask_ts, hask_asker⟩, ?_⟩
        intro m hm
        rcases hmsgs m hm with h | h
        · exact Or.inl (h.trans hask_asker.symm)
        · exact Or.inr (h.trans hbid_bidder.symm)
    · have hclosed2 : r.ask.is_closed = false := by
        cases hc : r.ask.is_closed
        · rfl
        · exact absurd hc hclosed
      have hrest_open : ∀ b ∈ rest, b.is_closed = false :=
        fun b hb => hbids_open b (List.mem_cons_of_mem _ hb)
      have hbid_notin : bid.id ∉ rest.map BidOrder.id := by
        rw [List.map_cons, List.nodup_cons] at hbids_nd
        exact hbids_nd.1
      have hrest_nd : (rest.map BidOrder.id).Nodup := by
        rw [List.map_cons, List.nodup_cons] at hbids_nd
        exact hbids_nd.2
      have hrest_mem : ∀ b ∈ rest, ∃ b0 ∈ update_bid_order bstore r.bid,
          b.id = b0.id ∧ b.ts = b0.ts ∧ b.bidder = b0.bidder := by
        intro b hb
        obtain ⟨b0, hb0, h1, h2, h3⟩ := hbids_mem b (List.mem_cons_of_mem _ hb)
        have hbne : b.id ≠ bid.id := fun hcon =>
          hbid_notin (hcon ▸ List.mem_map_of_mem BidOrder.id hb)
        refine ⟨b0, mem_update_bid_of_ne r.bid hb0 ?_, h1, h2, h3⟩
        rw [hbid_id, ← h1]
        exact hbne
      obtain ⟨bstore2, astore2, evtsNew, heq, c1, c2, c3, c4, c5, c6, c7, c8, c9⟩ :=
        ih r.ask (update_bid_order bstore r.bid) (update_ask_order astore r.ask)
          (evts ++ [r]) hclosed2 hrest_open hrest_nd hrest_mem
          (update_bid_nodup r.bid hb_nd) (update_bid_open hb_open)
          (update_ask_nodup r.ask han_nd) (update_ask_open han_open)
      refine ⟨bstore2, astore2, r :: evtsNew, ?_, ?_, ?_, c3, c4, ?_, ?_, c7, c8, ?_⟩
      · have happ : evts ++ [r] ++ evtsNew = evts ++ (r :: evtsNew) := by simp
        simp only [match_bids, hmo, hclosed2]
        rw [← happ]
        simpa using heq
      · intro o ho
        obtain ⟨o0, ho0, h1, h2, h3⟩ := c1 o ho
        rcases mem_update_bid ho0 with hm | rfl
        · exact ⟨o0, hm, h1, h2, h3⟩
        · obtain ⟨b0, hb0, g1, g2, g3⟩ := hbids_mem bid (List.mem_cons_self _ _)
          exact ⟨b0, hb0, h1.trans (hbid_id.trans g1), h2.trans (hbid_ts.trans g2),
            h3.trans (hbid_bidder.trans g3)⟩
      · intro o ho hne
        have hmem : o ∈ update_bid_order bstore r.bid := by
          refine mem_update_bid_of_ne r.bid ho (fun hcon => ?_)
          rw [hbid_id] at hcon
          exact hne bid (List.mem_cons_self _ _) hcon.symm
        exact c2 o hmem (fun b hb => hne b (List.mem_cons_of_mem _ hb))
      · intro o ho
        rcases c5 o ho with hm | hskel
        · rcases mem_update_ask hm with hm2 | rfl
          · exact Or.inl hm2
          · exact Or.inr ⟨hask_id, hask_ts, hask_asker⟩
        · exact Or.inr ⟨hskel.1.trans hask_id, hskel.2.1.trans hask_ts,
            hskel.2.2.trans hask_asker⟩
      · intro o ho hne
        have hmem : o ∈ update_ask_order astore r.ask :=
          mem_update_ask_of_ne r.ask ho (by rw [hask_id]; exact hne)
        exact c6 o hmem (by rw [hask_id]; exact hne)
      · intro e he
        rcases List.mem_cons.mp he with rfl | he2
        · refine ⟨⟨bid, List.mem_cons_self _ _, hbid_id, hbid_ts, hbid_bidder⟩,
            ⟨hask_id, hask_ts, hask_asker⟩, ?_⟩
          intro m hm
          rcases hmsgs m hm with h | h
          · exact Or.inl (h.trans hask_asker.symm)
          · exact Or.inr (h.trans hbid_bidder.symm)
        · obtain ⟨⟨b0, hb0, g1, g2, g3⟩, ⟨k1, k2, k3⟩, kmsgs⟩ := c9 e he2
          exact ⟨⟨b0, List.mem_cons_of_mem _ hb0, g1, g2, g3⟩,
            ⟨k1.trans hask_id, k2.trans hask_ts, k3.trans hask_asker⟩, kmsgs⟩

/-!
## The outer matching loop
-/

lemma mem_of_mem_get_bid_orders {bstore : List BidOrder} {b : BidOrder}
    (h : b ∈ get_bid_orders bstore) : b ∈ bstore :=
  ((List.perm_insertionSort bidPT _).trans
    (List.perm_insertionSort bidKeyLE bstore)).mem_iff.mp h

lemma mem_of_mem_get_ask_orders {astore : List AskOrder} {a : AskOrder}
    (h : a ∈ get_ask_orders astore) : a ∈ astore :=
  ((List.perm_insertionSort askPT _).trans
    (List.perm_insertionSort askKeyLE astore)).mem_iff.mp h

lemma filter_get_bids_nodup (bstore : List BidOrder) (p : BidOrder → Bool)
    (h : (bstore.map BidOrder.id).Nodup) :
    (((get_bid_orders bstore).filter p).map BidOrder.id).Nodup := by
  have hperm : get_bid_orders bstore ~ bstore :=
    (List.perm_insertionSort bidPT _).trans (List.perm_insertionSort bidKeyLE bstore)
  have h2 : ((get_bid_orders bstore).map BidOrder.id).Nodup :=
    ((hperm.map BidOrder.id).nodup_iff).mpr h
  exact (((get_bid_orders bstore).filter_sublist).map BidOrder.id).nodup h2

lemma filter_get_asks_nodup (astore : List AskOrder) (p : AskOrder → Bool)
    (h : (astore.map AskOrder.id).Nodup) :
    (((get_ask_orders astore).filter p).map AskOrder.id).Nodup := by
  have hperm : get_ask_orders astore ~ astore :=
    (List.perm_insertionSort askPT _).trans (List.perm_insertionSort askKeyLE astore)
  have h2 : ((get_ask_orders astore).map AskOrder.id).Nodup :=
    ((hperm.map AskOrder.id).nodup_iff).mpr h
  exact (((get_ask_orders astore).filter_sublist).map AskOrder.id).nodup h2

/-- Master specification of the outer loop `match_asks`: walking a list of
swept asks (each stored, with `ts < now`, distinct ids) over well-formed
stores succeeds; orders with `ts ≥ now` survive unchanged; the final stores
keep distinct ids, only open orders, and every entry descends from a stored
order; and every emitted event pairs a stored bid and a stored ask that both
arrived before `now`, sending only to that pair's asker and bidder. -/
lemma match_asks_spec (now : Nat) (asks : List AskOrder)
    (bstore : List BidOrder) (astore : List AskOrder) (evts : List MatchResult)
    (h_asks_mem : ∀ a ∈ asks, a ∈ astore)
    (h_asks_ts : ∀ a ∈ asks, a.ts < now)
    (h_asks_nd : (asks.map AskOrder.id).Nodup)
    (hb_nd : (bstore.map BidOrder.id).Nodup)
    (hb_open : ∀ o ∈ bstore, o.is_closed = false)
    (han_nd : (astore.map AskOrder.id).Nodup)
    (han_open : ∀ o ∈ astore, o.is_closed = false) :
    ∃ bstore2 astore2 evtsNew,
      match_asks now asks bstore astore evts = Except.ok (bstore2, astore2, evts ++ evtsNew) ∧
      (∀ o ∈ bstore2, ∃ o0 ∈ bstore, o.id = o0.id ∧ o.ts = o0.ts ∧ o.bidder = o0.bidder) ∧
      (∀ o ∈ bstore, now ≤ o.ts → o ∈ bstore2) ∧
      (bstore2.map BidOrder.id).Nodup ∧
      (∀ o ∈ bstore2, o.is_closed = false) ∧
      (∀ o ∈ astore2, ∃ o0 ∈ astore, o.id = o0.id ∧ o.ts = o0.ts ∧ o.asker = o0.asker) ∧
      (∀ o ∈ astore, now ≤ o.ts → o ∈ astore2) ∧
      (astore2.map AskOrder.id).Nodup ∧
      (∀ o ∈ astore2, o.is_closed = false) ∧
      (∀ e ∈ evtsNew,
        e.bid.ts < now ∧ e.ask.ts < now ∧
        (∃ b0 ∈ bstore, e.bid.id = b0.id ∧ e.bid.ts = b0.ts ∧ e.bid.bidder = b0.bidder) ∧
        (∃ a0 ∈ astore, e.ask.id = a0.id ∧ e.ask.ts = a0.ts ∧ e.ask.asker = a0.asker) ∧
        (∀ m ∈ e.msgs, m.to_address = e.ask.asker ∨ m.to_address = e.bid.bidder)) := by
  induction asks generalizing bstore astore evts with
  | nil =>
    refine ⟨bstore, astore, [], by simp [match_asks], ?_, ?_, hb_nd, hb_open, ?_, ?_,
      han_nd, han_open, ?_⟩
    · intro o ho; exact ⟨o, ho, rfl, rfl, rfl⟩
    · intro o ho _; exact ho
    · intro o ho; exact ⟨o, ho, rfl, rfl, rfl⟩
    · intro o ho _; exact ho
    · intro e he; cases he
  | cons ask rest ih =>
    have hask_mem : ask ∈ astore := h_asks_mem ask (List.mem_cons_self _ _)
    have hask_ts : ask.ts < now := h_asks_ts ask (List.mem_cons_self _ _)
    have hask_open : ask.is_closed = false := han_open ask hask_mem
    have hask_notin : ask.id ∉ rest.map AskOrder.id := by
      rw [List.map_cons, List.nodup_cons] at h_asks_nd
      exact h_asks_nd.1
    have hrest_nd : (rest.map AskOrder.id).Nodup := by
      rw [List.map_cons, List.nodup_cons] at h_asks_nd
      exact h_asks_nd.2
    set p : BidOrder → Bool :=
      fun bid => decide (ask.price ≤ bid.price) && decide (bid.ts < now) with hp
    have hbids_sub : ∀ b ∈ (get_bid_orders bstore).filter p, b ∈ bstore ∧ b.ts < now := by
      intro b hb
      obtain ⟨hb1, hb2⟩ := List.mem_filter.mp hb
      refine ⟨mem_of_mem_get_bid_orders hb1, ?_⟩
      rw [hp] at hb2
      simp only [Bool.and_eq_true, decide_eq_true_eq] at hb2
      exact hb2.2
    obtain ⟨bs1, as1, new1, heq1, d1, d2, d3, d4, d5, d6, d7, d8, d9⟩ :=
      match_bids_spec ask ((get_bid_orders bstore).filter p) bstore astore evts
        hask_open
        (fun b hb => hb_open b (hbids_sub b hb).1)
        (filter_get_bids_nodup bstore p hb_nd)
        (fun b hb => ⟨b, (hbids_sub b hb).1, rfl, rfl, rfl⟩)
        hb_nd hb_open han_nd han_open
    have hrest_mem : ∀ a ∈ rest, a ∈ as1 := by
      intro a hmem
      have h1 : a ∈ astore := h_asks_mem a (List.mem_cons_of_mem _ hmem)
      refine d6 a h1 (fun hcon => ?_)
      exact hask_notin (hcon ▸ List.mem_map_of_mem AskOrder.id hmem)
    obtain ⟨bstore2, astore2, new2, heq2, e1, e2, e3, e4, e5, e6, e7, e8, e9⟩ :=
      ih bs1 as1 (evts ++ new1) hrest_mem
        (fun a hmem => h_asks_ts a (List.mem_cons_of_mem _ hmem))
        hrest_nd d3 d4 d7 d8
    refine ⟨bstore2, astore2, new1 ++ new2, ?_, ?_, ?_, e3, e4, ?_, ?_, e7, e8, ?_⟩
    · simp only [match_asks, ← hp, heq1]
      rw [heq2, List.append_assoc]
    · intro o ho
      obtain ⟨o1, ho1, h1, h2, h3⟩ := e1 o ho
      obtain ⟨o0, ho0, g1, g2, g3⟩ := d1 o1 ho1
      exact ⟨o0, ho0, h1.trans g1, h2.trans g2, h3.trans g3⟩
    · intro o ho hts
      have hstep : o ∈ bs1 := by
        refine d2 o ho (fun b hb hcon => ?_)
        obtain ⟨hbmem, hbts⟩ := hbids_sub b hb
        have : b = o := bid_eq_of_id_eq hb_nd hbmem ho hcon
        subst this
        omega
      exact e2 o hstep hts
    · intro o ho
      obtain ⟨o1, ho1, h1, h2, h3⟩ := e5 o ho
      rcases d5 o1 ho1 with hm | hskel
      · exact ⟨o1, hm, h1, h2, h3⟩
      · exact ⟨ask, hask_mem, h1.trans hskel.1, h2.trans hskel.2.1, h3.trans hskel.2.2⟩
    · intro o ho hts
      have hstep : o ∈ as1 := by
        refine d6 o ho (fun hcon => ?_)
        have : o = ask := ask_eq_of_id_eq han_nd ho hask_mem hcon
        subst this
        omega
      exact e6 o hstep hts
    · intro e he
      rcases List.mem_append.mp he with he1 | he2
      · obtain ⟨⟨b0, hb0, g1, g2, g3⟩, ⟨k1, k2, k3⟩, kmsgs⟩ := d9 e he1
        obtain ⟨hbmem, hbts⟩ := hbids_sub b0 hb0
        refine ⟨by omega, by rw [k2]; exact hask_ts, ⟨b0, hbmem, g1, g2, g3⟩,
          ⟨ask, hask_mem, k1, k2, k3⟩, kmsgs⟩
      · obtain ⟨t1, t2, ⟨b1, hb1, g1, g2, g3⟩, ⟨a1, ha1, k1, k2, k3⟩, kmsgs⟩ := e9 e he2
        obtain ⟨b0, hb0, l1, l2, l3⟩ := d1 b1 hb1
        have hask_side : ∃ a0 ∈ astore, e.ask.id = a0.id ∧ e.ask.ts = a0.ts ∧
            e.ask.asker = a0.asker := by
          rcases d5 a1 ha1 with hm | hskel
          · exact ⟨a1, hm, k1, k2, k3⟩
          · exact ⟨ask, hask_mem, k1.trans hskel.1, k2.trans hskel.2.1, k3.trans hskel.2.2⟩
        exact ⟨t1, t2, ⟨b0, hb0, g1.trans l1, g2.trans l2, g3.trans l3⟩, hask_side, kmsgs⟩

/-!
## C8: tick exclusion
-/

/-- C8: no order with `ts ≥ now` participates in a sweep taken at `now`: it
survives the sweep as the unique, unchanged record under its id, and no match
event (hence no transfer or match attribute) involves its id. -/
theorem c8_tick_exclusion (state : State) (sender : String) (now : Nat)
    (bstore : List BidOrder) (astore : List AskOrder)
    (bstore2 : List BidOrder) (astore2 : List AskOrder) (evts : List MatchResult)
    (hb_nd : (bstore.map BidOrder.id).Nodup)
    (hb_open : ∀ o ∈ bstore, o.is_closed = false)
    (han_nd : (astore.map AskOrder.id).Nodup)
    (han_open : ∀ o ∈ astore, o.is_closed = false)
    (h : try_match state sender now bstore astore = Except.ok (bstore2, astore2, evts)) :
    (∀ b ∈ bstore, now ≤ b.ts →
      b ∈ bstore2 ∧ (∀ b2 ∈ bstore2, b2.id = b.id → b2 = b) ∧
      (∀ e ∈ evts, e.bid.id ≠ b.id)) ∧
    (∀ a ∈ astore, now ≤ a.ts →
      a ∈ astore2 ∧ (∀ a2 ∈ astore2, a2.id = a.id → a2 = a) ∧
      (∀ e ∈ evts, e.ask.id ≠ a.id)) := by
  unfold try_match at h
  split_ifs at h with hs
  obtain ⟨b2, a2, new, heq, f1, f2, f3, f4, f5, f6, f7, f8, f9⟩ :=
    match_asks_spec now ((get_ask_orders astore).filter (fun ask => decide (ask.ts < now)))
      bstore astore []
      (fun a hmem => mem_of_mem_get_ask_orders (List.mem_filter.mp hmem).1)
      (fun a hmem => by
        have := (List.mem_filter.mp hmem).2
        simpa using this)
      (filter_get_asks_nodup astore _ han_nd)
      hb_nd hb_open han_nd han_open
  rw [heq, List.nil_append, Except.ok.injEq, Prod.mk.injEq, Prod.mk.injEq] at h
  obtain ⟨hb2, ha2, hevts⟩ := h
  subst hb2; subst ha2; subst hevts
  constructor
  · intro b hb hts
    refine ⟨f2 b hb hts, ?_, ?_⟩
    · intro b2 hb2 hid
      exact bid_eq_of_id_eq f3 hb2 (f2 b hb hts) hid
    · intro e he hid
      obtain ⟨hets, -, ⟨b0, hb0, g1, g2, -⟩, -, -⟩ := f9 e he
      rw [hid] at g1
      have : b0 = b := bid_eq_of_id_eq hb_nd hb0 hb g1.symm
      subst this
      omega
  · intro a hmem hts
    refine ⟨f6 a hmem hts, ?_, ?_⟩
    · intro a2 ha2 hid
      exact ask_eq_of_id_eq f7 ha2 (f6 a hmem hts) hid
    · intro e he hid
      obtain ⟨-, hets, -, ⟨a0, ha0, k1, k2, -⟩, -⟩ := f9 e he
      rw [hid] at k1
      have : a0 = a := ask_eq_of_id_eq han_nd ha0 hmem k1.symm
      subst this
      omega

/-- Witness for C8: a sweep at `now = 100` over same-tick orders leaves both
orders in place. -/
theorem c8_witness :
    crossBid ∈ ([crossBid] : List BidOrder) ∧
    crossAsk ∈ ([crossAsk] : List AskOrder) := by
  have h := c8_tick_exclusion adminConfig "admin" 100 [crossBid] [crossAsk]
    [crossBid] [crossAsk] [] (by decide) (by decide) (by decide) (by decide) rfl
  exact ⟨(h.1 crossBid (List.mem_singleton.mpr rfl) (by decide)).1,
         (h.2 crossAsk (List.mem_singleton.mpr rfl) (by decide)).1⟩

/-!
## Reachability invariants
-/

/-- Characterization of a successful bid ingest. -/
lemma try_bid_ok_characterize {state : State} {store : List BidOrder} {sender : String}
    {funds_list : List Coin} {id : String} {price ts : Nat}
    {store2 : List BidOrder} {resp : Response}
    (h : try_bid state store sender funds_list id price ts = Except.ok (store2, resp)) :
    ∃ c : Coin, funds_list = [c] ∧ c.amount ≠ 0 ∧ sender ≠ state.contract_admin ∧
      store2 = saveBid store
        { id := id, price := price, ts := ts, bidder := sender,
          funds := c.amount, funds_denom := c.denom,
          proceeds := c.amount * state.ask_increment / price } := by
  rcases funds_list with _ | ⟨c, _ | ⟨d, r⟩⟩ <;>
    simp only [try_bid] at h <;>
    split_ifs at h with hp hf hd hs hdup hmod hinc <;>
    try exact Except.noConfusion h
  rw [Except.ok.injEq, Prod.mk.injEq] at h
  exact ⟨c, rfl, hf, hs, h.1.symm⟩

/-- Characterization of a successful ask ingest. -/
lemma try_ask_ok_characterize {state : State} {store : List AskOrder} {sender : String}
    {funds_list : List Coin} {id : String} {price ts : Nat}
    {store2 : List AskOrder} {resp : Response}
    (h : try_ask state store sender funds_list id price ts = Except.ok (store2, resp)) :
    ∃ c : Coin, funds_list = [c] ∧ c.amount ≠ 0 ∧ sender ≠ state.contract_admin ∧
      store2 = saveAsk store
        { id := id, price := price, ts := ts, asker := sender,
          funds := c.amount, funds_denom := c.denom,
          proceeds := askProceeds c.amount price state.ask_increment } := by
  rcases funds_list with _ | ⟨c, _ | ⟨d, r⟩⟩ <;>
    simp only [try_ask] at h <;>
    split_ifs at h with hp hf hd hs hdup <;>
    try exact Except.noConfusion h
  rw [Except.ok.injEq, Prod.mk.injEq] at h
  push_neg at hf
  exact ⟨c, rfl, hf.1, hs, h.1.symm⟩

/-- Characterization of a successful sweep in terms of the input stores. -/
lemma try_match_ok_inv {state : State} {sender : String} {now : Nat}
    {bstore bstore2 : List BidOrder} {astore astore2 : List AskOrder}
    {evts : List MatchResult}
    (hb_nd : (bstore.map BidOrder.id).Nodup)
    (hb_open : ∀ o ∈ bstore, o.is_closed = false)
    (han_nd : (astore.map AskOrder.id).Nodup)
    (han_open : ∀ o ∈ astore, o.is_closed = false)
    (h : try_match state sender now bstore astore = Except.ok (bstore2, astore2, evts)) :
    (bstore2.map BidOrder.id).Nodup ∧
    (∀ o ∈ bstore2, o.is_closed = false) ∧
    (∀ o ∈ bstore2, ∃ o0 ∈ bstore, o.id = o0.id ∧ o.ts = o0.ts ∧ o.bidder = o0.bidder) ∧
    (astore2.map AskOrder.id).Nodup ∧
    (∀ o ∈ astore2, o.is_closed = false) ∧
    (∀ o ∈ astore2, ∃ o0 ∈ astore, o.id = o0.id ∧ o.ts = o0.ts ∧ o.asker = o0.asker) ∧
    (∀ e ∈ evts,
      (∃ b0 ∈ bstore, e.bid.id = b0.id ∧ e.bid.ts = b0.ts ∧ e.bid.bidder = b0.bidder) ∧
      (∃ a0 ∈ astore, e.ask.id = a0.id ∧ e.ask.ts = a0.ts ∧ e.ask.asker = a0.asker) ∧
      (∀ m ∈ e.msgs, m.to_address = e.ask.asker ∨ m.to_address = e.bid.bidder)) := by
  unfold try_match at h
  split_ifs at h with hs
  obtain ⟨b2, a2, new, heq, f1, f2, f3, f4, f5, f6, f7, f8, f9⟩ :=
    match_asks_spec now ((get_ask_orders astore).filter (fun ask => decide (ask.ts < now)))
      bstore astore []
      (fun a hmem => mem_of_mem_get_ask_orders (List.mem_filter.mp hmem).1)
      (fun a hmem => by
        have := (List.mem_filter.mp hmem).2
        simpa using this)
      (filter_get_asks_nodup astore _ han_nd)
      hb_nd hb_open han_nd han_open
  rw [heq, List.nil_append, Except.ok.injEq, Prod.mk.injEq, Prod.mk.injEq] at h
  obtain ⟨hb2, ha2, hevts⟩ := h
  subst hb2; subst ha2; subst hevts
  exact ⟨f3, f4, f1, f7, f8, f5,
    fun e he => ⟨(f9 e he).2.2.1, (f9 e he).2.2.2.1, (f9 e he).2.2.2.2⟩⟩

/-- One step of the contract preserves the store invariant and the config. -/
lemma step_preserves_inv (cs : ContractState) (op : Nat × Msg) (hinv : StoreInv cs) :
    StoreInv (step cs op) ∧ (step cs op).config = cs.config := by
  obtain ⟨hbn, han, hbo, hao, hbadm, haadm⟩ := hinv
  rcases op with ⟨ts, m⟩
  cases m with
  | bid sender funds id price =>
    simp only [step, execute]
    cases h : try_bid cs.config cs.bids sender funds id price ts with
    | error e => exact ⟨⟨hbn, han, hbo, hao, hbadm, haadm⟩, rfl⟩
    | ok res =>
      obtain ⟨store2, resp⟩ := res
      obtain ⟨c, -, hca, hcs, hst⟩ := try_bid_ok_characterize h
      subst hst
      refine ⟨⟨saveBid_nodup _ hbn, han, ?_, hao, ?_, haadm⟩, rfl⟩
      · intro o ho
        rcases mem_saveBid ho with hm | rfl
        · exact hbo o hm
        · simp [BidOrder.is_closed, hca]
      · intro o ho
        rcases mem_saveBid ho with hm | rfl
        · exact hbadm o hm
        · exact hcs
  | ask sender funds id price =>
    simp only [step, execute]
    cases h : try_ask cs.config cs.asks sender funds id price ts with
    | error e => exact ⟨⟨hbn, han, hbo, hao, hbadm, haadm⟩, rfl⟩
    | ok res =>
      obtain ⟨store2, resp⟩ := res
      obtain ⟨c, -, hca, hcs, hst⟩ := try_ask_ok_characterize h
      subst hst
      refine ⟨⟨hbn, saveAsk_nodup _ han, hbo, ?_, hbadm, ?_⟩, rfl⟩
      · intro o ho
        rcases mem_saveAsk ho with hm | rfl
        · exact hao o hm
        · simp [AskOrder.is_closed, hca]
      · intro o ho
        rcases mem_saveAsk ho with hm | rfl
        · exact haadm o hm
        · exact hcs
  | doMatch sender =>
    simp only [step, execute]
    cases h : try_match cs.config sender ts cs.bids cs.asks with
    | error e => exact ⟨⟨hbn, han, hbo, hao, hbadm, haadm⟩, rfl⟩
    | ok res =>
      obtain ⟨b2, a2, evts⟩ := res
      obtain ⟨g1, g2, g3, g4, g5, g6, -⟩ := try_match_ok_inv hbn hbo han hao h
      refine ⟨⟨g1, g4, g2, g5, ?_, ?_⟩, rfl⟩
      · intro o ho
        obtain ⟨o0, ho0, -, -, hb⟩ := g3 o ho
        rw [hb]
        exact hbadm o0 ho0
      · intro o ho
        obtain ⟨o0, ho0, -, -, hb⟩ := g6 o ho
        rw [hb]
        exact haadm o0 ho0

/-- Traces preserve the invariant and the config. -/
lemma runTrace_preserves_inv (ops : List (Nat × Msg)) (cs : ContractState)
    (hinv : StoreInv cs) :
    StoreInv (runTrace cs ops) ∧ (runTrace cs ops).config = cs.config := by
  induction ops generalizing cs with
  | nil => exact ⟨hinv, rfl⟩
  | cons op rest ih =>
    obtain ⟨h1, h2⟩ := step_preserves_inv cs op hinv
    obtain ⟨h3, h4⟩ := ih (step cs op) h1
    exact ⟨h3, h4.trans h2⟩

/-- Every reachable state satisfies the store invariant. -/
lemma reachable_inv {cs : ContractState} (h : Reachable cs) : StoreInv cs := by
  obtain ⟨sender, msg, ops, rfl⟩ := h
  refine (runTrace_preserves_inv ops _ ?_).1
  refine ⟨List.nodup_nil, List.nodup_nil, ?_, ?_, ?_, ?_⟩ <;> intro o ho <;> cases ho

/-- A message of the flattened sweep output comes from one of the events. -/
lemma mem_sweepMsgs {evts : List MatchResult} {m : BankSend} :
    m ∈ sweepMsgs evts ↔ ∃ e ∈ evts, m ∈ e.msgs := by
  simp [sweepMsgs]

/-!
## C9: no admin trade
-/

/-- C9: in every reachable state the admin is never the bidder of a stored
bid nor the asker of a stored ask; no transfer emitted by a sweep names the
admin as recipient; admin submissions of a bid or ask never succeed, and when
the earlier validation checks pass they fail with exactly `Unauthorized`. -/
theorem c9_no_admin_trade (cs : ContractState) (h : Reachable cs) :
    (∀ b ∈ cs.bids, b.bidder ≠ cs.config.contract_admin) ∧
    (∀ a ∈ cs.asks, a.asker ≠ cs.config.contract_admin) ∧
    (∀ (now : Nat) (b2 : List BidOrder) (a2 : List AskOrder) (evts : List MatchResult),
      try_match cs.config cs.config.contract_admin now cs.bids cs.asks =
        Except.ok (b2, a2, evts) →
      ∀ m ∈ sweepMsgs evts, m.to_address ≠ cs.config.contract_admin) ∧
    (∀ (funds_list : List Coin) (id : String) (price ts : Nat)
        (res : List BidOrder × Response),
      try_bid cs.config cs.bids cs.config.contract_admin funds_list id price ts ≠
        Except.ok res) ∧
    (∀ (funds_list : List Coin) (id : String) (price ts : Nat)
        (res : List AskOrder × Response),
      try_ask cs.config cs.asks cs.config.contract_admin funds_list id price ts ≠
        Except.ok res) ∧
    (∀ (c : Coin) (id : String) (price ts : Nat),
      price ≠ 0 → c.amount ≠ 0 → c.denom = cs.config.bid_denom →
      try_bid cs.config cs.bids cs.config.contract_admin [c] id price ts =
        Except.error ContractError.Unauthorized) ∧
    (∀ (c : Coin) (id : String) (price ts : Nat),
      price ≠ 0 → c.amount ≠ 0 → c.amount % cs.config.ask_increment = 0 →
      c.denom = cs.config.ask_denom →
      try_ask cs.config cs.asks cs.config.contract_admin [c] id price ts =
        Except.error ContractError.Unauthorized) := by
  obtain ⟨hbn, han, hbo, hao, hbadm, haadm⟩ := reachable_inv h
  refine ⟨hbadm, haadm, ?_, ?_, ?_, ?_, ?_⟩
  · intro now b2 a2 evts hm m hmem
    obtain ⟨-, -, -, -, -, -, g7⟩ := try_match_ok_inv hbn hbo han hao hm
    obtain ⟨e, he, hme⟩ := mem_sweepMsgs.mp hmem
    obtain ⟨⟨b0, hb0, -, -, hbb⟩, ⟨a0, ha0, -, -, hba⟩, hto⟩ := g7 e he
    rcases hto m hme with hcase | hcase
    · rw [hcase, hba]
      exact haadm a0 ha0
    · rw [hcase, hbb]
      exact hbadm b0 hb0
  · intro funds_list id price ts res hok
    obtain ⟨res1, res2⟩ := res
    obtain ⟨c, -, -, hne, -⟩ := try_bid_ok_characterize hok
    exact hne rfl
  · intro funds_list id price ts res hok
    obtain ⟨res1, res2⟩ := res
    obtain ⟨c, -, -, hne, -⟩ := try_ask_ok_characterize hok
    exact hne rfl
  · intro c id price ts hp hca hcd
    simp [try_bid, hp, hca, hcd]
  · intro c id price ts hp hca hcm hcd
    simp [try_ask, hp, hca, hcm, hcd]

/-- Witness for C9 at the freshly instantiated (hence reachable) state. -/
theorem c9_witness :
    try_bid baseState.config baseState.bids baseState.config.contract_admin
      [{ amount := 5, denom := "stablecoin" }] "x" 1 0 =
      Except.error ContractError.Unauthorized ∧
    try_ask baseState.config baseState.asks baseState.config.contract_admin
      [{ amount := 1000000000, denom := "nhash" }] "y" 1 0 =
      Except.error ContractError.Unauthorized := by
  have h := c9_no_admin_trade baseState ⟨"admin", { bid_denom := "stablecoin" }, [], rfl⟩
  exact ⟨h.2.2.2.2.2.1 { amount := 5, denom := "stablecoin" } "x" 1 0
      (by decide) (by decide) rfl,
    h.2.2.2.2.2.2 { amount := 1000000000, denom := "nhash" } "y" 1 0
      (by decide) (by decide) (by decide) rfl⟩

/-!
## C10: sweep determinism
-/

lemma update_bid_perm {bsA bsB : List BidOrder} (r : BidOrder) (h : bsA ~ bsB) :
    update_bid_order bsA r ~ update_bid_order bsB r := by
  unfold update_bid_order removeBid saveBid
  split_ifs
  · exact h.filter _
  · exact (h.filter _).append_right _

lemma update_ask_perm {asA asB : List AskOrder} (r : AskOrder) (h : asA ~ asB) :
    update_ask_order asA r ~ update_ask_order asB r := by
  unfold update_ask_order removeAsk saveAsk
  split_ifs
  · exact h.filter _
  · exact (h.filter _).append_right _

lemma match_bids_preserves_bid_nodup :
    ∀ (bids : List BidOrder) (ask : AskOrder) (bstore : List BidOrder)
      (astore : List AskOrder) (evts : List MatchResult)
      (b2 : List BidOrder) (a2 : List AskOrder) (e2 : List MatchResult),
      (bstore.map BidOrder.id).Nodup →
      match_bids ask bids bstore astore evts = Except.ok (b2, a2, e2) →
      (b2.map BidOrder.id).Nodup := by
  intro bids
  induction bids with
  | nil =>
    intro ask bstore astore evts b2 a2 e2 hnd h
    simp only [match_bids, Except.ok.injEq, Prod.mk.injEq] at h
    rw [← h.1]
    exact hnd
  | cons bid rest ih =>
    intro ask bstore astore evts b2 a2 e2 hnd h
    simp only [match_bids] at h
    cases hmo : match_orders bid ask with
    | error e => rw [hmo] at h; exact Except.noConfusion h
    | ok r =>
      rw [hmo] at h
      simp only [] at h
      split_ifs at h with hc
      · simp only [Except.ok.injEq, Prod.mk.injEq] at h
        rw [← h.1]
        exact update_bid_nodup r.bid hnd
      · exact ih r.ask (update_bid_order bstore r.bid) (update_ask_order astore r.ask)
          (evts ++ [r]) b2 a2 e2 (update_bid_nodup r.bid hnd) h

/-- The inner loop's events (and success or failure) depend on the stores
only through permutation: permuted stores give the same events and permuted
result stores. -/
lemma match_bids_cong :
    ∀ (bids : List BidOrder) (ask : AskOrder) (evts : List MatchResult)
      (bsA bsB : List BidOrder) (asA asB : List AskOrder),
      bsA ~ bsB → asA ~ asB →
      (match match_bids ask bids bsA asA evts, match_bids ask bids bsB asB evts with
       | Except.ok (b1, a1, e1), Except.ok (b2, a2, e2) => e1 = e2 ∧ b1 ~ b2 ∧ a1 ~ a2
       | Except.error e1, Except.error e2 => e1 = e2
       | _, _ => False) := by
  intro bids
  induction bids with
  | nil =>
    intro ask evts bsA bsB asA asB hb ha
    simp only [match_bids]
    exact ⟨trivial, hb, ha⟩
  | cons bid rest ih =>
    intro ask evts bsA bsB asA asB hb ha
    simp only [match_bids]
    cases hmo : match_orders bid ask with
    | error e => simp
    | ok r =>
      simp only []
      split_ifs with hc
      · exact ⟨rfl, update_bid_perm r.bid hb, update_ask_perm r.ask ha⟩
      · exact ih r.ask (evts ++ [r]) _ _ _ _ (update_bid_perm r.bid hb)
          (update_ask_perm r.ask ha)

/-- The outer loop's events depend on the stores only through permutation
(given distinct bid ids, so that the re-scan of the bid book is canonical). -/
lemma match_asks_cong :
    ∀ (asks : List AskOrder) (now : Nat) (evts : List MatchResult)
      (bsA bsB : List BidOrder) (asA asB : List AskOrder),
      bsA ~ bsB → asA ~ asB → (bsA.map BidOrder.id).Nodup →
      (match match_asks now asks bsA asA evts, match_asks now asks bsB asB evts with
       | Except.ok (b1, a1, e1), Except.ok (b2, a2, e2) => e1 = e2 ∧ b1 ~ b2 ∧ a1 ~ a2
       | Except.error e1, Except.error e2 => e1 = e2
       | _, _ => False) := by
  intro asks
  induction asks with
  | nil =>
    intro now evts bsA bsB asA asB hb ha hbn
    simp only [match_asks]
    exact ⟨trivial, hb, ha⟩
  | cons ask rest ih =>
    intro now evts bsA bsB asA asB hb ha hbn
    have hbids : (get_bid_orders bsB).filter
        (fun bid => decide (ask.price ≤ bid.price) && decide (bid.ts < now)) =
        (get_bid_orders bsA).filter
        (fun bid => decide (ask.price ≤ bid.price) && decide (bid.ts < now)) := by
      rw [get_bid_orders_eq_of_perm hb hbn]
    simp only [match_asks, hbids]
    have hinner := match_bids_cong
      ((get_bid_orders bsA).filter
        (fun bid => decide (ask.price ≤ bid.price) && decide (bid.ts < now)))
      ask evts bsA bsB asA asB hb ha
    cases hA : match_bids ask
        ((get_bid_orders bsA).filter
          (fun bid => decide (ask.price ≤ bid.price) && decide (bid.ts < now)))
        bsA asA evts with
    | error e1 =>
      cases hB : match_bids ask
          ((get_bid_orders bsA).filter
            (fun bid => decide (ask.price ≤ bid.price) && decide (bid.ts < now)))
          bsB asB evts with
      | error e2 =>
        rw [hA, hB] at hinner
        simp only []
        exact hinner
      | ok t2 =>
        rw [hA, hB] at hinner
        exact hinner.elim
    | ok t1 =>
      obtain ⟨b1, a1, e1⟩ := t1
      cases hB : match_bids ask
          ((get_bid_orders bsA).filter
            (fun bid => decide (ask.price ≤ bid.price) && decide (bid.ts < now)))
          bsB asB evts with
      | error e2 =>
        rw [hA, hB] at hinner
        exact hinner.elim
      | ok t2 =>
        obtain ⟨b2, a2, e2⟩ := t2
        rw [hA, hB] at hinner
        obtain ⟨heq, hb2, ha2⟩ := hinner
        subst heq
        exact ih now e1 b1 b2 a1 a2 hb2 ha2
          (match_bids_preserves_bid_nodup _ ask bsA asA evts b1 a1 e1 hbn hA)

/-- C10: two sweeps over stores with identical contents (permutations with
distinct ids) and the same `now` produce identical transfer lists and
attribute lists. -/
theorem c10_sweep_determinism (state : State) (sender : String) (now : Nat)
    (bsA bsB : List BidOrder) (asA asB : List AskOrder)
    (hpb : bsA ~ bsB) (hpa : asA ~ asB)
    (hbn : (bsA.map BidOrder.id).Nodup) (han : (asA.map AskOrder.id).Nodup) :
    (try_match state sender now bsA asA).map
      (fun r => (sweepMsgs r.2.2, sweepAttrs r.2.2)) =
    (try_match state sender now bsB asB).map
      (fun r => (sweepMsgs r.2.2, sweepAttrs r.2.2)) := by
  unfold try_match
  split_ifs with hs
  · rfl
  · have hasks : (get_ask_orders asB).filter (fun ask => decide (ask.ts < now)) =
        (get_ask_orders asA).filter (fun ask => decide (ask.ts < now)) := by
      rw [get_ask_orders_eq_of_perm hpa han]
    simp only [hasks]
    have h := match_asks_cong
      ((get_ask_orders asA).filter (fun ask => decide (ask.ts < now)))
      now [] bsA bsB asA asB hpb hpa hbn
    cases hA : match_asks now
        ((get_ask_orders asA).filter (fun ask => decide (ask.ts < now))) bsA asA [] with
    | error e1 =>
      cases hB : match_asks now
          ((get_ask_orders asA).filter (fun ask => decide (ask.ts < now))) bsB asB [] with
      | error e2 =>
        rw [hA, hB] at h
        rw [h]
      | ok t2 =>
        rw [hA, hB] at h
        exact h.elim
    | ok t1 =>
      obtain ⟨b1, a1, e1⟩ := t1
      cases hB : match_asks now
          ((get_ask_orders asA).filter (fun ask => decide (ask.ts < now))) bsB asB [] with
      | error e2 =>
        rw [hA, hB] at h
        exact h.elim
      | ok t2 =>
        obtain ⟨b2, a2, e2⟩ := t2
        rw [hA, hB] at h
        obtain ⟨heq, -, -⟩ := h
        subst heq
        rfl

/-- Witness for C10: concretely permuted two-bid stores produce identical
sweep output. -/
theorem c10_witness :
    (try_match adminConfig "admin" 101 [crossBid, tieBid] [crossAsk]).map
      (fun r => (sweepMsgs r.2.2, sweepAttrs r.2.2)) =
    (try_match adminConfig "admin" 101 [tieBid, crossBid] [crossAsk]).map
      (fun r => (sweepMsgs r.2.2, sweepAttrs r.2.2)) :=
  c10_sweep_determinism adminConfig "admin" 101 [crossBid, tieBid] [tieBid, crossBid]
    [crossAsk] [crossAsk] (List.Perm.swap tieBid crossBid []) (List.Perm.refl _)
    (by decide) (by decide)

end Orderbook
